import Mathlib

/-!
Verification of the Mission Control orbit/reconciliation engine.

This file shallowly embeds the core of the web client: the grouping
function (web/src/utils/grouping.ts), the selection store
(state/selection.ts), and the orbit/reconciliation engine of the
SolarSystem component, together with the relevant theme constants
(web/src/theme.ts).

Embedding conventions:

* Angles are stored in turns (fractions of a full circle), not radians:
  where the source stores `randomStartAngle = Math.random() * Math.PI * 2`
  and `angle = startAngle + idx * (2 * Math.PI / max(n, 1))`, the model
  stores the random draw `u` itself and `u + idx * (1 / max(n, 1))`.
  Multiplying by `2 * pi` is a fixed change of units; all claims about
  angles are preservation statements, which are unit-independent, and the
  rational representation keeps every definition computable.
* `Math.sqrt` is threaded through as an explicit parameter
  `sq : Rat -> Rat`; the engine only ever applies it, never inspects it.
* `Math.random()` draws are supplied as an explicit list of rationals,
  consumed in order, one per ring creation (the source consumes one draw
  per ring creation and nowhere else).
* Every PIXI display object the claims mention (planet sprite, glow, rim
  glow, particle) is modeled with an object identity (`ObjId`), allocated
  from a counter at construction time, so that a re-created planet has
  new objects, as in the source. The display tree is modeled by the three
  child lists of the stage, the base layer and the focus layer.
  `Container.addChild` first detaches the object from its current parent
  and then appends it (PIXI reparents on addChild);
  `Container.removeChild` removes the object only when it is actually a
  child of that container and otherwise does nothing (PIXI's
  `removeChild` is a no-op when `child.parent !== this`). The source's
  `app.stage.removeChild(x)` calls are therefore modeled as removals from
  the stage child list, which silently no-op when `x` sits in the base or
  focus layer.
* Pure graphics (orbit lines, orbit glow, label text, hit areas, tints,
  glow redraws, the hover overlay) have no feedback into any state the
  claims mention and are not modeled; the sprite's `height` always
  mirrors its `width` in the source and only `width` is kept.
* `container.memoryPercent || 0` / `container.cpuPercent || 0` on
  possibly-absent numeric fields are modeled as `Option Rat` plus
  `Option.getD 0` (for a present value `v`, `v || 0 = v` when `v /= 0`
  and `0` when `v = 0`, which agrees with `getD`).
* React plumbing: refs always hold current values and are modeled as
  ordinary state fields. The sprite event handlers are closures bound at
  planet-creation time; the only render-time value such a closure
  captures is `selection` inside `handleHover`, so `handleHover` takes
  that captured selection as an explicit argument. The debounce timer is
  modeled by a `pendingUnfocus` flag: `setTimeout` sets it,
  `clearTimeout` clears it, and the timer callback (`unfocusTimerFire`)
  does nothing unless the flag is still set.
-/

/- Batteries marks the Rat arithmetic operations irreducible as an
elaboration hint. The kernel itself ignores reducibility, but the decide
tactic's evaluator respects it; restoring the default reducibility for
this file lets concrete scenes be evaluated by decide. This changes no
definition and no proof obligation. -/
set_option allowUnsafeReducibility true
attribute [local semireducible] Rat.mul Rat.add Rat.sub Rat.ofScientific Rat.inv
attribute [local semireducible] Nat.instDecidableCoprime

namespace MissionControl

/-- One monitored entity, from web/src/types.ts (ContainerStats). Only the
fields read by the grouping function and the engine are kept; the other
telemetry fields (name, image, network counters, labels, ...) are never
read by the modeled code. -/
structure Container where
  id : String
  group : String
  state : String
  cpuPercent : Option Rat
  memoryPercent : Option Rat
deriving DecidableEq, Repr

/-- A derived group, from web/src/types.ts (Group). -/
structure MCGroup where
  key : String
  title : String
  containers : List Container
  dominantState : String
deriving DecidableEq, Repr

/-- Dominant state of a group, from grouping.ts (getDominantState):
priority running > restarting > paused > exited, with exited as the
fallback. -/
def getDominantState (containers : List Container) : String :=
  let states := containers.map Container.state
  if states.any (fun s => s == "running") then "running"
  else if states.any (fun s => s == "restarting") then "restarting"
  else if states.any (fun s => s == "paused") then "paused"
  else "exited"

/-- Split a character list at separators, with JS String.split semantics:
consecutive separators yield empty pieces and the empty input yields one
empty piece. (Implemented on character lists by structural recursion so
that it evaluates inside the kernel; String.split does not.) -/
def splitChars (isSep : Char → Bool) : List Char → List (List Char)
  | [] => [[]]
  | ch :: rest =>
    let r := splitChars isSep rest
    if isSep ch then [] :: r
    else
      match r with
      | [] => [[ch]]
      | w :: ws => (ch :: w) :: ws

/-- Capitalize the first character of a word, from grouping.ts
(formatGroupTitle's map step): charAt(0).toUpperCase() + slice(1); group
keys are ASCII, where Char.toUpper agrees with JS toUpperCase. -/
def capitalizeWord : List Char → List Char
  | [] => []
  | c :: cs => c.toUpper :: cs

/-- Join words with single spaces (JS Array.join(' ')). -/
def joinWithSpace : List (List Char) → List Char
  | [] => []
  | [w] => w
  | w :: ws => w ++ ' ' :: joinWithSpace ws

/-- Format a group key into a display title, from grouping.ts
(formatGroupTitle): split on '-' and '_', capitalize each word, join
with spaces. -/
def formatGroupTitle (key : String) : String :=
  String.mk (joinWithSpace ((splitChars (fun ch => ch == '-' || ch == '_') key.data).map capitalizeWord))

/-- One step of the grouping pass of groupContainers: push the container
onto its group's bucket, creating the bucket at the end when the key is
new (a JS Map preserves insertion order). -/
def insertContainer (m : List (String × List Container)) (c : Container) :
    List (String × List Container) :=
  if m.any (fun p => p.1 == c.group) then
    m.map (fun p => if p.1 = c.group then (p.1, p.2 ++ [c]) else p)
  else
    m ++ [(c.group, [c])]

/-- Aggregate containers into groups, from grouping.ts (groupContainers). -/
def groupContainers (containers : List Container) : List MCGroup :=
  let groupMap := containers.foldl insertContainer []
  groupMap.map (fun p =>
    { key := p.1
      title := formatGroupTitle p.1
      containers := p.2
      dominantState := getDominantState p.2 })

namespace theme
namespace planet

/-- theme.planet.minRadius. -/
def minRadius : Rat := 12

/-- theme.planet.maxRadius (cap for small planets). -/
def maxRadius : Rat := 18

/-- theme.planet.largeMaxRadius (cap for high-memory planets). -/
def largeMaxRadius : Rat := 12

end planet
namespace hover

/-- theme.hover.focusScale (scale multiplier when a planet is focused). -/
def focusScale : Rat := 1.5

/-- theme.hover.debounceMs (debounce delay for unfocus, in ms). -/
def debounceMs : Nat := 20

end hover
end theme

/-- The selection sum type, from state/selection.ts. -/
inductive Selection where
  | none : Selection
  | planet (id : String) (container : Container) (persistent : Bool) : Selection
  | group (key : String) (group : MCGroup) : Selection
deriving DecidableEq, Repr

/-- The hover record, from state/selection.ts. -/
structure Hover where
  planetId : Option String
  container : Option Container
deriving DecidableEq, Repr

/-- The selection store's data, from state/selection.ts
(useSelectionStore): zustand's set merges partial updates, so each
mutator below touches exactly the field it writes. -/
structure SelectionStore where
  selection : Selection
  hover : Hover
deriving DecidableEq, Repr

namespace SelectionStore

def setSelection (s : Selection) (st : SelectionStore) : SelectionStore :=
  { st with selection := s }

def selectPlanet (id : String) (container : Container) (persistent : Bool)
    (st : SelectionStore) : SelectionStore :=
  { st with selection := Selection.planet id container persistent }

def selectGroup (key : String) (g : MCGroup) (st : SelectionStore) : SelectionStore :=
  { st with selection := Selection.group key g }

def clearSelection (st : SelectionStore) : SelectionStore :=
  { st with selection := Selection.none }

def setHover (planetId : Option String) (container : Option Container)
    (st : SelectionStore) : SelectionStore :=
  { st with hover := { planetId := planetId, container := container } }

def clearHover (st : SelectionStore) : SelectionStore :=
  { st with hover := { planetId := none, container := none } }

/-- Initial store state. -/
def initial : SelectionStore :=
  { selection := Selection.none, hover := { planetId := none, container := none } }

end SelectionStore

/-- Identity of a modeled PIXI display object. The natural number is the
allocation counter value at the object's construction; sprite, glow and
rim glow of one planet share the planet's allocation number but are
distinct objects (distinct constructors). -/
inductive ObjId where
  | sprite (n : Nat) : ObjId
  | glow (n : Nat) : ObjId
  | rim (n : Nat) : ObjId
  | particle (n : Nat) : ObjId
deriving DecidableEq, Repr

/-- The three modeled PIXI containers. -/
inductive LayerId where
  | stage : LayerId
  | base : LayerId
  | focus : LayerId
deriving DecidableEq, Repr

/-- The modeled display tree: child lists of the stage, the base layer and
the focus layer (only modeled objects are tracked; the layers themselves,
the sun, the overlay and the pure graphics are not). -/
structure Display where
  stageChildren : List ObjId
  baseChildren : List ObjId
  focusChildren : List ObjId
deriving DecidableEq, Repr

namespace Display

/-- Detach an object from whatever parent currently holds it. -/
def detach (d : Display) (o : ObjId) : Display :=
  { stageChildren := d.stageChildren.erase o
    baseChildren := d.baseChildren.erase o
    focusChildren := d.focusChildren.erase o }

/-- PIXI Container.addChild: reparent (detach from the current parent)
and append to the target container's children. -/
def addChild (d : Display) (layer : LayerId) (o : ObjId) : Display :=
  let d1 := d.detach o
  match layer with
  | LayerId.stage => { d1 with stageChildren := d1.stageChildren ++ [o] }
  | LayerId.base => { d1 with baseChildren := d1.baseChildren ++ [o] }
  | LayerId.focus => { d1 with focusChildren := d1.focusChildren ++ [o] }

/-- PIXI Container.removeChild: remove the object from this container's
children; a no-op when the object is not a child of this container. -/
def removeChild (d : Display) (layer : LayerId) (o : ObjId) : Display :=
  match layer with
  | LayerId.stage => { d with stageChildren := d.stageChildren.erase o }
  | LayerId.base => { d with baseChildren := d.baseChildren.erase o }
  | LayerId.focus => { d with focusChildren := d.focusChildren.erase o }

/-- The empty display tree. -/
def empty : Display :=
  { stageChildren := [], baseChildren := [], focusChildren := [] }

end Display

/-- One orbiting body, from the Planet interface of the SolarSystem
component. `objId` identifies its sprite/glow/rim objects; `angle` is in
turns; `width` is the sprite's width (the source keeps height equal to
width throughout). -/
structure Planet where
  container : Container
  objId : Nat
  angle : Rat
  orbitSpeed : Rat
  width : Rat
  particles : List Nat
deriving DecidableEq, Repr

/-- One ring, from the GroupOrbit interface. `randomStartAngle` is in
turns. `planets` is the ring's id-keyed planet map (a JS Map in insertion
order). -/
structure GroupOrbit where
  group : MCGroup
  orbitRadius : Rat
  randomStartAngle : Rat
  planets : List (String × Planet)
deriving DecidableEq, Repr

/-- The engine's whole mutable state: the ring map (groupOrbitsRef), the
display tree, focusedPlanetIdRef, the selection store, the pending
debounced-unfocus timer, and the display-object allocation counter. -/
structure EngineState where
  groupOrbits : List (String × GroupOrbit)
  display : Display
  focusedPlanetId : Option String
  store : SelectionStore
  pendingUnfocus : Bool
  nextObjId : Nat
deriving DecidableEq, Repr

/-- The engine's state right after mount: no rings, empty layers, nothing
focused, store at its initial value, no pending timer. -/
def initialState : EngineState :=
  { groupOrbits := []
    display := Display.empty
    focusedPlanetId := none
    store := SelectionStore.initial
    pendingUnfocus := false
    nextObjId := 0 }

/-- First-match association lookup (JS Map.get under unique keys). -/
def assocFind {α : Type} (k : String) : List (String × α) → Option α
  | [] => none
  | p :: ps => if p.1 = k then some p.2 else assocFind k ps

/-- Rewrite every entry carrying the key (JS Map.set of an updated record
under unique keys). -/
def assocUpdate {α : Type} (k : String) (f : α → α) (l : List (String × α)) :
    List (String × α) :=
  l.map (fun p => if p.1 = k then (p.1, f p.2) else p)

namespace EngineState

def removeFromStage (st : EngineState) (o : ObjId) : EngineState :=
  { st with display := st.display.removeChild LayerId.stage o }

def addToBase (st : EngineState) (o : ObjId) : EngineState :=
  { st with display := st.display.addChild LayerId.base o }

def addToFocus (st : EngineState) (o : ObjId) : EngineState :=
  { st with display := st.display.addChild LayerId.focus o }

def removeFromBase (st : EngineState) (o : ObjId) : EngineState :=
  { st with display := st.display.removeChild LayerId.base o }

def removeFromFocus (st : EngineState) (o : ObjId) : EngineState :=
  { st with display := st.display.removeChild LayerId.focus o }

end EngineState

/-- Math.min on rationals, written out so that it evaluates inside the
kernel (it equals Min.min on Rat, see ratMin_eq_min below). -/
def ratMin (a b : Rat) : Rat :=
  if a ≤ b then a else b

/-- calculateOrbitRadius from the SolarSystem component: base, step and
cap are fractions of the viewport's smaller dimension; the step is
compressed by 0.85 when there are more than 6 groups; the result is
clamped to the cap. (The `if (!appRef.current) return 120` guard concerns
an unmounted application and is outside the model, which assumes the app
exists and takes its viewport size as the argument.) -/
def calculateOrbitRadius (viewportSize : Rat) (index : Nat) (totalGroups : Nat) : Rat :=
  let BASE := viewportSize * 0.12
  let STEP0 := viewportSize * 0.075
  let MAX_ORBIT := viewportSize * 0.46
  let STEP := if totalGroups > 6 then STEP0 * 0.85 else STEP0
  let radius := BASE + (index : Rat) * STEP
  ratMin radius MAX_ORBIT

/-- The forEach scan of unfocusPlanet / handleHover / handleClick over all
rings: it keeps overwriting its result, so the LAST ring containing the
planet id wins; within a ring, `planets.get(id)` is the id-keyed lookup. -/
def findPlanetRingLast (rings : List (String × GroupOrbit)) (pid : String) :
    Option (String × Planet) :=
  rings.foldl
    (fun acc p =>
      match assocFind pid p.2.planets with
      | some pl => some (p.1, pl)
      | none => acc)
    none

/-- unfocusPlanet from the SolarSystem component: clear the focused ref,
clear selection and hover, move the (last-found) planet's objects from
the focus layer back to the base layer and divide its width by the focus
scale. -/
def unfocusPlanet (st : EngineState) : EngineState :=
  match st.focusedPlanetId with
  | none => st
  | some pid =>
    let st1 := { st with focusedPlanetId := none }
    let st2 := { st1 with store := SelectionStore.clearHover (SelectionStore.clearSelection st1.store) }
    match findPlanetRingLast st2.groupOrbits pid with
    | none => st2
    | some rp =>
      let o := rp.2.objId
      let st3 := st2.removeFromFocus (ObjId.sprite o)
      let st4 := st3.removeFromFocus (ObjId.glow o)
      let st5 := st4.removeFromFocus (ObjId.rim o)
      let st6 := st5.addToBase (ObjId.glow o)
      let st7 := st6.addToBase (ObjId.sprite o)
      let st8 := st7.addToBase (ObjId.rim o)
      let scaleDown := fun (q : Planet) => { q with width := q.width / theme.hover.focusScale }
      let orbits := assocUpdate rp.1
        (fun r => { r with planets := assocUpdate pid scaleDown r.planets }) st8.groupOrbits
      { st8 with groupOrbits := orbits }

/-- Whether a selection is a group selection. -/
def Selection.isGroup : Selection → Bool
  | Selection.group _ _ => true
  | _ => false

/-- handleHover from the SolarSystem component. `selAtBind` is the
`selection` value captured by the sprite's pointerover closure (the
closure is bound at planet-creation time and reads the render-time
selection, not the store). -/
def handleHover (selAtBind : Selection) (planetId : String) (st : EngineState) :
    EngineState :=
  let st1 :=
    match selAtBind with
    | Selection.planet id _ persistent =>
      if persistent && id != planetId then unfocusPlanet st else st
    | _ => st
  if selAtBind.isGroup then st1
  else
    let st2 := { st1 with pendingUnfocus := false }
    if st2.focusedPlanetId = some planetId then st2
    else
      match findPlanetRingLast st2.groupOrbits planetId with
      | none => st2
      | some rp =>
        let st3 := { st2 with focusedPlanetId := some planetId }
        let st4 :=
          { st3 with store := SelectionStore.setHover (some planetId) (some rp.2.container) st3.store }
        let o := rp.2.objId
        let st5 := st4.removeFromBase (ObjId.sprite o)
        let st6 := st5.removeFromBase (ObjId.glow o)
        let st7 := st6.removeFromBase (ObjId.rim o)
        let st8 := st7.addToFocus (ObjId.glow o)
        let st9 := st8.addToFocus (ObjId.sprite o)
        let stA := st9.addToFocus (ObjId.rim o)
        let scaleUp := fun (q : Planet) => { q with width := q.width * theme.hover.focusScale }
        let orbits := assocUpdate rp.1
          (fun r => { r with planets := assocUpdate planetId scaleUp r.planets }) stA.groupOrbits
        { stA with groupOrbits := orbits }

/-- handleClick from the SolarSystem component: cancel any pending
unfocus, unfocus a different previously focused planet, pin the clicked
planet (persistent selection), and move it to the focus layer if its
sprite currently sits in the base layer. -/
def handleClick (planetId : String) (container : Container) (st : EngineState) :
    EngineState :=
  let st1 := { st with pendingUnfocus := false }
  match findPlanetRingLast st1.groupOrbits planetId with
  | none => st1
  | some rp =>
    let st2 :=
      match st1.focusedPlanetId with
      | some q => if q != planetId then unfocusPlanet st1 else st1
      | none => st1
    let st3 := { st2 with focusedPlanetId := some planetId }
    let st4 := { st3 with store := SelectionStore.selectPlanet planetId container true st3.store }
    let o := rp.2.objId
    if (ObjId.sprite o) ∈ st4.display.baseChildren then
      let st5 := st4.removeFromBase (ObjId.sprite o)
      let st6 := st5.removeFromBase (ObjId.glow o)
      let st7 := st6.removeFromBase (ObjId.rim o)
      let st8 := st7.addToFocus (ObjId.glow o)
      let st9 := st8.addToFocus (ObjId.sprite o)
      let stA := st9.addToFocus (ObjId.rim o)
      let scaleUp := fun (q : Planet) => { q with width := q.width * theme.hover.focusScale }
      let orbits := assocUpdate rp.1
        (fun r => { r with planets := assocUpdate planetId scaleUp r.planets }) stA.groupOrbits
      { stA with groupOrbits := orbits }
    else st4

/-- The ring hit-area's pointerdown closure: selectGroup on the store. -/
def ringPointerDown (key : String) (g : MCGroup) (st : EngineState) : EngineState :=
  { st with store := SelectionStore.selectGroup key g st.store }

/-- maybeUnfocus from the SolarSystem component: clearTimeout of any
pending timer and setTimeout of a fresh one, i.e. a debounced unfocus
becomes pending. -/
def maybeUnfocus (st : EngineState) : EngineState :=
  { st with pendingUnfocus := true }

/-- The debounced callback scheduled by maybeUnfocus, at its fire time.
If the timer was cancelled in the meantime the callback never runs. At
fire time it re-reads the CURRENT selection from the store
(useSelectionStore.getState()) and aborts when that selection is a
persistent planet selection or a group selection. -/
def unfocusTimerFire (st : EngineState) : EngineState :=
  if st.pendingUnfocus then
    let st1 := { st with pendingUnfocus := false }
    match st1.store.selection with
    | Selection.planet _ _ true => st1
    | Selection.group _ _ => st1
    | _ => unfocusPlanet st1
  else st

/-- handleResize from the SolarSystem component: recompute every ring's
radius from its iteration index and the current ring count (the sun
re-centering and the ring redraw are pure graphics). -/
def handleResize (viewportSize : Rat) (st : EngineState) : EngineState :=
  let n := st.groupOrbits.length
  let orbits := (st.groupOrbits.enum).map
    (fun p => (p.2.1, { p.2.2 with orbitRadius := calculateOrbitRadius viewportSize p.1 n }))
  { st with groupOrbits := orbits }

/-!
The per-refresh reconciliation effect (the `useEffect` of the SolarSystem
component keyed on `containers`), decomposed exactly along the source's
passes.
-/

/-- The attempted scene detach of a removed planet's visuals, from the
removal branches: `app.stage.removeChild(sprite/glow/rimGlow)` and
`particles.forEach(p => app.stage.removeChild(p))`. The objects are
children of the base or focus layer, never of the stage, so these are
removals from the stage child list that silently no-op. -/
def stageRemovePlanetVisuals (pl : Planet) (st : EngineState) : EngineState :=
  let st1 := st.removeFromStage (ObjId.sprite pl.objId)
  let st2 := st1.removeFromStage (ObjId.glow pl.objId)
  let st3 := st2.removeFromStage (ObjId.rim pl.objId)
  pl.particles.foldl (fun s n => s.removeFromStage (ObjId.particle n)) st3

/-- Ring-removal visuals pass for one stale ring: attempt to detach every
member planet's visuals from the stage (its orbit line, orbit glow and
label are pure graphics, also "removed" from the stage, and its hit area
is not removed at all). -/
def removeRingVisuals (r : GroupOrbit) (st : EngineState) : EngineState :=
  r.planets.foldl (fun s q => stageRemovePlanetVisuals q.2 s) st

/-- Pass 1 of the reconciliation effect: drop every ring whose group key
is no longer present, attempting (in vain) to detach its planets'
visuals from the stage. No unfocus happens on this path. -/
def removeStaleRings (currentKeys : List String) (st : EngineState) : EngineState :=
  let stale := st.groupOrbits.filter (fun p => !(currentKeys.contains p.1))
  let st1 := stale.foldl (fun s p => removeRingVisuals p.2 s) st
  { st1 with groupOrbits := st1.groupOrbits.filter (fun p => currentKeys.contains p.1) }

/-- One step of the per-group planet-removal pass (the forEach body): a
planet whose id is still among the group's members is kept; otherwise it
is unfocused first when it is the focused one, its visuals get the
(no-op) stage detach, and it is deleted from the ring's planet map. -/
def removePlanetStep (gkey : String) (memberIds : List String) (st : EngineState)
    (q : String × Planet) : EngineState :=
  if memberIds.contains q.1 then st
  else
    let stU := if st.focusedPlanetId = some q.1 then unfocusPlanet st else st
    let stV := stageRemovePlanetVisuals q.2 stU
    let orbits := assocUpdate gkey
      (fun r => { r with planets := r.planets.filter (fun p => p.1 != q.1) })
      stV.groupOrbits
    { stV with groupOrbits := orbits }

/-- Per-group planet-removal pass: fold of removePlanetStep over the
ring's current planet list (the forEach snapshot). -/
def removeStalePlanets (g : MCGroup) (st0 : EngineState) : EngineState :=
  match assocFind g.key st0.groupOrbits with
  | none => st0
  | some ring =>
    ring.planets.foldl (removePlanetStep g.key (g.containers.map Container.id)) st0

/-- Planet creation (the `if (!planet)` branch of the per-container
forEach body): the one-time angle `ring.randomStartAngle + idx * spacing`
(spacing in turns), fresh display objects appended to the base layer
(glow, then sprite, then rim glow), placeholder speed 0.1 and width 64
(the 64px gradient texture), both overwritten by the unconditional
update that follows. `ring` is the forEach closure's groupOrbit value at
lookup time. -/
def createPlanetIfMissing (g : MCGroup) (ring : GroupOrbit) (st0 : EngineState)
    (ci : Nat × Container) : EngineState :=
  match assocFind ci.2.id ring.planets with
  | some _ => st0
  | none =>
    let c := ci.2
    let spacing : Rat := 1 / ((max g.containers.length 1 : Nat) : Rat)
    let angle := ring.randomStartAngle + (ci.1 : Rat) * spacing
    let oid := st0.nextObjId
    let stx := st0.addToBase (ObjId.glow oid)
    let sty := stx.addToBase (ObjId.sprite oid)
    let stz := sty.addToBase (ObjId.rim oid)
    let pl : Planet :=
      { container := c, objId := oid, angle := angle, orbitSpeed := 0.1
        width := 64, particles := [] }
    let orbits := assocUpdate g.key
      (fun r => { r with planets := r.planets ++ [(c.id, pl)] }) stz.groupOrbits
    { stz with nextObjId := oid + 1, groupOrbits := orbits }

/-- The unconditional per-container update (the tail of the forEach
body): planet.container is refreshed, the rendered size is recomputed
from memoryPercent (with the smaller cap above 70, and the focus scale
when this planet is the focused one), the orbit speed from cpuPercent,
and the particle set is created or cleared as the activity condition
starts or stops holding. -/
def updatePlanetRecord (sq : Rat → Rat) (g : MCGroup) (st1 : EngineState) (c : Container) :
    EngineState :=
  match assocFind g.key st1.groupOrbits with
  | none => st1
  | some ring1 =>
    match assocFind c.id ring1.planets with
    | none => st1
    | some pl =>
      let mem := c.memoryPercent.getD 0
      let maxSize := if mem > 70 then theme.planet.largeMaxRadius else theme.planet.maxRadius
      let size := theme.planet.minRadius + sq (mem / 100) * (maxSize - theme.planet.minRadius)
      let targetSize := size * 2
      let width :=
        if st1.focusedPlanetId = some c.id then targetSize * theme.hover.focusScale
        else targetSize
      let cpu := c.cpuPercent.getD 0
      let speed := (0.05 : Rat) + (cpu / 100) * 0.45
      let stP :=
        if (cpu > 50 || c.state == "restarting") && pl.particles.isEmpty then
          let ids := (List.range 6).map (fun i => st1.nextObjId + i)
          let stq := ids.foldl (fun s n => s.addToBase (ObjId.particle n)) st1
          ({ stq with nextObjId := stq.nextObjId + 6 }, ids)
        else if !(cpu > 50 || c.state == "restarting") && !pl.particles.isEmpty then
          (pl.particles.foldl (fun s n => s.removeFromStage (ObjId.particle n)) st1, [])
        else (st1, pl.particles)
      let newPl := fun (q : Planet) =>
        { q with container := c, orbitSpeed := speed, width := width, particles := stP.2 }
      let orbits := assocUpdate g.key
        (fun r => { r with planets := assocUpdate c.id newPl r.planets }) stP.1.groupOrbits
      { stP.1 with groupOrbits := orbits }

/-- Per-container get-or-create and update, from the
`group.containers.forEach` body: create the planet when its id is
missing from the ring, then run the unconditional update. -/
def upsertPlanet (sq : Rat → Rat) (g : MCGroup) (st0 : EngineState) (ci : Nat × Container) :
    EngineState :=
  match assocFind g.key st0.groupOrbits with
  | none => st0
  | some ring => updatePlanetRecord sq g (createPlanetIfMissing g ring st0 ci) ci.2

/-- Per-group reconciliation step, from the `groups.forEach` body:
get-or-create the ring (creation computes the radius from the group's
index and the refresh's total group count and consumes one random draw
for the start angle, in turns), refresh the ring's group record, remove
stale planets, then get-or-create and update each member planet. The
orbit line/glow/label/hit-area graphics are not modeled. -/
def processGroup (sq : Rat → Rat) (viewportSize : Rat) (totalGroups : Nat) (ig : Nat × MCGroup)
    (acc : EngineState × List Rat) : EngineState × List Rat :=
  let st := acc.1
  let g := ig.2
  let created : EngineState × List Rat :=
    match assocFind g.key st.groupOrbits with
    | some _ => acc
    | none =>
      let ring : GroupOrbit :=
        { group := g
          orbitRadius := calculateOrbitRadius viewportSize ig.1 totalGroups
          randomStartAngle := acc.2.headD 0
          planets := [] }
      ({ st with groupOrbits := st.groupOrbits ++ [(g.key, ring)] }, acc.2.tail)
  let refreshed := assocUpdate g.key (fun r => { r with group := g }) created.1.groupOrbits
  let stA := { created.1 with groupOrbits := refreshed }
  let stB := removeStalePlanets g stA
  let stC := (g.containers.enum).foldl (upsertPlanet sq g) stB
  (stC, created.2)

/-- Fold of processGroup over the indexed group list. -/
def processGroups (sq : Rat → Rat) (viewportSize : Rat) (totalGroups : Nat) :
    List (Nat × MCGroup) → EngineState × List Rat → EngineState × List Rat
  | [], acc => acc
  | ig :: rest, acc => processGroups sq viewportSize totalGroups rest (processGroup sq viewportSize totalGroups ig acc)

/-- The whole per-refresh reconciliation step: group the containers, drop
stale rings, then process every group in order. `rand` supplies the
`Math.random()` draws consumed at ring creations. -/
def reconcile (sq : Rat → Rat) (viewportSize : Rat) (containers : List Container)
    (rand : List Rat) (st : EngineState) : EngineState :=
  let groups := groupContainers containers
  let st1 := removeStaleRings (groups.map MCGroup.key) st
  (processGroups sq viewportSize groups.length groups.enum (st1, rand)).1

/-!
Spec-side definitions, worded from the specification (for refinement
comparisons against the source-derived definitions above).
-/

/-- Modeled from the spec's orbit radius policy (section 4.2): base
0.12*V, step 0.075*V compressed by 0.85 when N > 6, radius clamped to
0.46*V. -/
def specOrbitRadius (V : Rat) (i N : Nat) : Rat :=
  let step := 0.075 * V * (if N > 6 then 0.85 else 1)
  min (0.12 * V + (i : Rat) * step) (0.46 * V)

/-- Modeled from the spec's dominant-state priority: the first match in
the order running > restarting > paused > exited over the members,
exited when no member is in any higher state. -/
def specDominantState (members : List Container) : String :=
  if ∃ c ∈ members, c.state = "running" then "running"
  else if ∃ c ∈ members, c.state = "restarting" then "restarting"
  else if ∃ c ∈ members, c.state = "paused" then "paused"
  else "exited"

/-- The keys of a list in first-encounter order, one occurrence each
(spec: "insertion order of groups is the order keys are first
encountered in the input"). -/
def firstOccurrences : List String → List String
  | [] => []
  | k :: ks => k :: firstOccurrences (ks.filter (fun x => x != k))
termination_by l => l.length
decreasing_by
  simp only [List.length_cons]
  exact Nat.lt_succ_of_le (List.length_filter_le _ _)

/-- Modeled from the spec's size formula (section 4.3 step 4):
size = minRadius + sqrt(memoryPercent/100) * (maxRadiusForBucket - minRadius),
with the smaller cap when memoryPercent > 70. -/
def specPlanetSize (sq : Rat → Rat) (memoryPercent : Rat) : Rat :=
  let bucketCap :=
    if memoryPercent > 70 then theme.planet.largeMaxRadius else theme.planet.maxRadius
  theme.planet.minRadius + sq (memoryPercent / 100) * (bucketCap - theme.planet.minRadius)

/-- Modeled from the spec's speed formula (section 4.3 step 4):
speed = 0.05 + (loadPercent/100) * 0.45 radians per second. -/
def specOrbitSpeed (loadPercent : Rat) : Rat :=
  0.05 + (loadPercent / 100) * 0.45

/-!
Fixed-point predicates for the idempotence analysis: a state is
"reconciled" for an entity list when every value the per-refresh pass
would write is already in place, so re-running the pass is the
identity.
-/

/-- The planet record already carries exactly what the unconditional
per-container update writes (under the focus snapshot foc): re-running
the update rewrites every field with its current value and takes the
no-op particle branch. -/
def PlanetSettled (sq : Rat → Rat) (foc : Option String) (c : Container) (pl : Planet) :
    Prop :=
  pl.container = c
  ∧ pl.orbitSpeed = 0.05 + (c.cpuPercent.getD 0) / 100 * 0.45
  ∧ pl.width = (if foc = some c.id
      then specPlanetSize sq (c.memoryPercent.getD 0) * 2 * theme.hover.focusScale
      else specPlanetSize sq (c.memoryPercent.getD 0) * 2)
  ∧ pl.particles.isEmpty
      = !((c.cpuPercent.getD 0 > 50 : Bool) || c.state == "restarting")

/-- The ring already matches its group: the group record is current,
every planet belongs to a current member, planet keys are duplicate-free,
and every member has a settled planet. -/
def RingSettled (sq : Rat → Rat) (foc : Option String) (g : MCGroup) (ring : GroupOrbit) :
    Prop :=
  ring.group = g
  ∧ (∀ q ∈ ring.planets, q.1 ∈ g.containers.map Container.id)
  ∧ (ring.planets.map Prod.fst).Nodup
  ∧ ∀ c ∈ g.containers, ∃ pl, assocFind c.id ring.planets = some pl
      ∧ PlanetSettled sq foc c pl

/-- The whole scene already matches the entity list: every ring belongs
to a current group, ring keys are duplicate-free, and every current
group has a settled ring. -/
def Reconciled (sq : Rat → Rat) (cs : List Container) (R : EngineState) : Prop :=
  (∀ p ∈ R.groupOrbits, p.1 ∈ (groupContainers cs).map MCGroup.key)
  ∧ (R.groupOrbits.map Prod.fst).Nodup
  ∧ ∀ g ∈ groupContainers cs, ∃ ring, assocFind g.key R.groupOrbits = some ring
      ∧ RingSettled sq R.focusedPlanetId g ring

/-!
Concrete scenario data for the counterexample and evaluation theorems.
`sqId` stands in for Math.sqrt; every scenario below only ever applies it
to 0 (where sqrt 0 = 0, so the stand-in is exact on these inputs) or
uses it identically on both sides of an equality.
-/

/-- A stand-in square root for concrete scenarios. -/
def sqId : Rat → Rat := fun q => q

/-- A running entity with the given id, group and metrics. -/
def sampleEntity (id group : String) (cpu mem : Rat) : Container :=
  { id := id, group := group, state := "running", cpuPercent := some cpu, memoryPercent := some mem }

/-- Lookup of one planet record: ring by group key, then planet by id. -/
def findPlanet (st : EngineState) (key pid : String) : Option Planet :=
  (assocFind key st.groupOrbits).bind (fun r => assocFind pid r.planets)

/-- How many planet sprites sit in the focus layer. -/
def focusSpriteCount (st : EngineState) : Nat :=
  st.display.focusChildren.countP (fun o =>
    match o with
    | ObjId.sprite _ => true
    | _ => false)

/-- C1 scenario: entities a (group g0) and p (group g1) are reconciled
from scratch, then p is pinned by a click. The next refresh moves p to
group g0 and keeps g1 alive through a new entity x. -/
def C1pinnedState : EngineState :=
  handleClick "p" (sampleEntity "p" "g1" 0 0)
    (reconcile sqId 100 [sampleEntity "a" "g0" 0 0, sampleEntity "p" "g1" 0 0] [0, 0] initialState)

/-- The C1 refresh list after the move of p from g1 to g0. -/
def C1refresh : List Container :=
  [sampleEntity "p" "g0" 0 0, sampleEntity "x" "g1" 0 0]

/-- C2 scenario: two entities in one group, reconciled from scratch, then
hover a followed by hover b before the debounced unfocus can fire. The
pointerover closures of a and b were bound during the initial render,
whose selection was none; the store's selection is still none at both
calls, so captured and current selection agree. -/
def C2state : EngineState :=
  handleHover Selection.none "b"
    (handleHover Selection.none "a"
      (reconcile sqId 100 [sampleEntity "a" "web" 0 0, sampleEntity "b" "web" 0 0] [0] initialState))

/-- C7 scenario, before the removal: a (group w) and b (group x)
reconciled from scratch, then a pinned by a click. -/
def C7pinnedState : EngineState :=
  handleClick "a" (sampleEntity "a" "w" 0 0)
    (reconcile sqId 100 [sampleEntity "a" "w" 0 0, sampleEntity "b" "x" 0 0] [0, 0] initialState)

/-- C7 scenario, after the refresh that drops entity a together with its
whole group w. -/
def C7afterState : EngineState :=
  reconcile sqId 100 [sampleEntity "b" "x" 0 0] [] C7pinnedState

/-- C9 scenario: one entity at cpu 80 (particles on), then the same
entity at cpu 0 (particles must go away). -/
def C9hotState : EngineState :=
  reconcile sqId 100 [sampleEntity "a" "web" 80 50] [0] initialState

/-- C9 scenario after the cool refresh. -/
def C9coolState : EngineState :=
  reconcile sqId 100 [sampleEntity "a" "web" 0 50] [] C9hotState

/-- C4 scenario: three groups gx, gy, gz reconciled from scratch (radii
12, 19.5, 27 at viewport 100), then a refresh keeping only gz and adding
a new group gw. -/
def C4threeRings : EngineState :=
  reconcile sqId 100
    [sampleEntity "x" "gx" 0 0, sampleEntity "y" "gy" 0 0, sampleEntity "z" "gz" 0 0]
    [0, 0, 0] initialState

/-- The C4 scenario after the refresh to groups [gz, gw]. -/
def C4afterState : EngineState :=
  reconcile sqId 100 [sampleEntity "z" "gz" 0 0, sampleEntity "w" "gw" 0 0] [0] C4threeRings

/-- C5 witness data: two entities in distinct groups, one key with a
separator to exercise the title formatting. -/
def C5entities : List Container :=
  [sampleEntity "a" "web-api" 80 50, sampleEntity "b" "db" 0 10]

/-- The group the grouping function produces for key web-api on
C5entities. -/
def C5group : MCGroup :=
  { key := "web-api", title := "Web Api"
    containers := [sampleEntity "a" "web-api" 80 50], dominantState := "running" }

/-- Whether a selection is a persistent planet selection or a group
selection (the two cases in which the debounced unfocus aborts). -/
def persistentOrGroup : Selection → Bool
  | Selection.planet _ _ true => true
  | Selection.group _ _ => true
  | _ => false

/-!
Basic lemmas about the engine operations.
-/

theorem ratMin_eq_min (a b : Rat) : ratMin a b = min a b := by
  rw [min_def, ratMin]

theorem ratMin_le_right (a b : Rat) : ratMin a b ≤ b := by
  rw [ratMin]
  split
  · assumption
  · exact le_rfl

theorem unfocusPlanet_pendingUnfocus (st : EngineState) :
    (unfocusPlanet st).pendingUnfocus = st.pendingUnfocus := by
  unfold unfocusPlanet
  split
  · rfl
  · dsimp only
    split <;> rfl

theorem handleClick_pendingUnfocus (planetId : String) (c : Container) (st : EngineState) :
    (handleClick planetId c st).pendingUnfocus = false := by
  unfold handleClick
  dsimp only
  split
  · rfl
  · split <;> split <;>
      simp [unfocusPlanet_pendingUnfocus, EngineState.removeFromBase, EngineState.addToFocus] <;>
      split <;> simp [unfocusPlanet_pendingUnfocus]

theorem unfocusTimerFire_of_cancelled (st : EngineState) (h : st.pendingUnfocus = false) :
    unfocusTimerFire st = st := by
  unfold unfocusTimerFire
  rw [h]
  simp

/-- C6: debounced-unfocus race safety. (1) Scheduling the debounced
unfocus and then pinning any body by pointer-down cancels the timer, so
its later firing changes nothing: the new pin stays intact. (2) The
firing callback re-reads the selection current at fire time and performs
no unfocus when that selection is a persistent planet selection or a
group selection: it only consumes the timer. -/
theorem C6_debounce_race_safety :
    (∀ (st : EngineState) (planetId : String) (c : Container),
      unfocusTimerFire (handleClick planetId c (maybeUnfocus st)) =
        handleClick planetId c (maybeUnfocus st))
    ∧ (∀ st : EngineState, persistentOrGroup st.store.selection = true →
      unfocusTimerFire st = { st with pendingUnfocus := false }) := by
  constructor
  · intro st planetId c
    exact unfocusTimerFire_of_cancelled _ (handleClick_pendingUnfocus planetId c (maybeUnfocus st))
  · intro st h
    by_cases hp : st.pendingUnfocus
    · unfold unfocusTimerFire
      rw [if_pos hp]
      dsimp only
      cases hsel : st.store.selection with
      | none => rw [hsel] at h; simp [persistentOrGroup] at h
      | planet id c pers =>
        cases pers with
        | true => rfl
        | false => rw [hsel] at h; simp [persistentOrGroup] at h
      | group k g => rfl
    · rw [unfocusTimerFire_of_cancelled st (by simpa using hp)]
      cases st with
      | mk go d f s pu n => simp_all

/-- C6 witness: with a group selected and an unfocus pending, the firing
timer only consumes the timer and clears nothing. -/
theorem C6_debounce_race_safety_witness :
    unfocusTimerFire (maybeUnfocus (ringPointerDown "web"
        { key := "web", title := "Web", containers := [sampleEntity "a" "web" 0 0], dominantState := "running" }
        initialState)) =
      { maybeUnfocus (ringPointerDown "web"
          { key := "web", title := "Web", containers := [sampleEntity "a" "web" 0 0], dominantState := "running" }
          initialState) with
        pendingUnfocus := false } :=
  C6_debounce_race_safety.2 _ (by decide)

/-- C10: the selection store keeps selection and hover independent:
setHover and clearHover never change the selection field, and
selectPlanet, selectGroup and clearSelection never change the hover
field. -/
theorem C10_store_frame_independence :
    (∀ (st : SelectionStore) (planetId : Option String) (c : Option Container),
      (SelectionStore.setHover planetId c st).selection = st.selection)
    ∧ (∀ st : SelectionStore, (SelectionStore.clearHover st).selection = st.selection)
    ∧ (∀ (st : SelectionStore) (id : String) (c : Container) (persistent : Bool),
      (SelectionStore.selectPlanet id c persistent st).hover = st.hover)
    ∧ (∀ (st : SelectionStore) (key : String) (g : MCGroup),
      (SelectionStore.selectGroup key g st).hover = st.hover)
    ∧ (∀ st : SelectionStore, (SelectionStore.clearSelection st).hover = st.hover) :=
  ⟨fun _ _ _ => rfl, fun _ => rfl, fun _ _ _ _ => rfl, fun _ _ _ => rfl, fun _ => rfl⟩

/-- C3: the computed orbit radius agrees with the spec's formula
min(0.12*V + i*step, 0.46*V) with step = 0.075*V compressed by 0.85
exactly when N > 6; it is non-decreasing in the index (for a
non-negative viewport size) and never exceeds 0.46*V. -/
theorem C3_orbit_radius_policy :
    (∀ (V : Rat) (i N : Nat), calculateOrbitRadius V i N = specOrbitRadius V i N)
    ∧ (∀ V : Rat, 0 ≤ V → ∀ (N i j : Nat), i ≤ j →
      calculateOrbitRadius V i N ≤ calculateOrbitRadius V j N)
    ∧ (∀ (V : Rat) (i N : Nat), calculateOrbitRadius V i N ≤ 0.46 * V) := by
  refine ⟨?_, ?_, ?_⟩
  · intro V i N
    unfold calculateOrbitRadius specOrbitRadius
    dsimp only
    rw [ratMin_eq_min]
    by_cases h : N > 6
    · rw [if_pos h, if_pos h]
      congr 1 <;> ring
    · rw [if_neg h, if_neg h]
      congr 1 <;> ring
  · intro V hV N i j hij
    unfold calculateOrbitRadius
    dsimp only
    rw [ratMin_eq_min, ratMin_eq_min]
    refine min_le_min (add_le_add_left ?_ _) le_rfl
    have hstep : (0 : Rat) ≤ (if N > 6 then V * 0.075 * 0.85 else V * 0.075) := by
      split <;> nlinarith
    exact mul_le_mul_of_nonneg_right (by exact_mod_cast hij) hstep
  · intro V i N
    unfold calculateOrbitRadius
    dsimp only
    exact le_of_le_of_eq (ratMin_le_right _ _) (by ring)

/-- C3 witness: a concrete monotonicity instance through the theorem. -/
theorem C3_orbit_radius_policy_witness :
    calculateOrbitRadius 200 1 3 ≤ calculateOrbitRadius 200 2 3 :=
  C3_orbit_radius_policy.2.1 200 (by norm_num) 3 1 2 (by norm_num)

/-- C2: FALSIFIED ON A CONCRETE RUN. Hovering body a and then body b
(before the 20 ms debounce fires, which also cancels the pending
debounce) leaves BOTH sprites in the focus layer: handleHover only
unfocuses the previous body when the selection is a persistent planet
selection, and a plain hover never writes the selection, so the focus
layer ends up with two bodies and body a stays at its scaled size
(width 36 = 1.5 x 24). -/
theorem C2_focus_layer_breach :
    focusSpriteCount C2state = 2
    ∧ ObjId.sprite 0 ∈ C2state.display.focusChildren
    ∧ ObjId.sprite 1 ∈ C2state.display.focusChildren
    ∧ (findPlanet C2state "web" "a").map Planet.width = some 36
    ∧ C2state.focusedPlanetId = some "b" := by
  decide

/-- C7: FALSIFIED ON A CONCRETE RUN. When the pinned entity a disappears
together with its whole group w, the ring-removal pass neither unfocuses
nor detaches: the selection stays pinned on a, a's sprite stays attached
to the focus layer (app.stage.removeChild no-ops on a child of the focus
layer), while the surviving body b does keep its angle. -/
theorem C7_pinned_removal_divergence :
    C7afterState.store.selection = Selection.planet "a" (sampleEntity "a" "w" 0 0) true
    ∧ C7afterState.focusedPlanetId = some "a"
    ∧ assocFind "w" C7afterState.groupOrbits = none
    ∧ ObjId.sprite 0 ∈ C7afterState.display.focusChildren
    ∧ (findPlanet C7afterState "x" "b").map Planet.angle =
        (findPlanet C7pinnedState "x" "b").map Planet.angle := by
  decide

/-- C9: the particle RECORD tracks the condition (cpu 80 gives six
particles, cpu 0 empties the array), but the particle graphics are never
detached: after the cool refresh all six particle objects are still
children of the base layer, because the removal calls
app.stage.removeChild on objects whose parent is the base layer. -/
theorem C9_particles_not_detached :
    (findPlanet C9hotState "web" "a").map Planet.particles = some [1, 2, 3, 4, 5, 6]
    ∧ (findPlanet C9coolState "web" "a").map Planet.particles = some []
    ∧ ([1, 2, 3, 4, 5, 6].all
        (fun n => C9coolState.display.baseChildren.contains (ObjId.particle n))) = true := by
  decide

/-- C4: FALSIFIED ON A CONCRETE RUN. A refresh that changes the group
count does NOT recompute surviving rings' radii: after refreshing from
groups [gx, gy, gz] (radii 12, 19.5, 27 at viewport 100) to [gz, gw],
ring gz keeps its stale radius 27 (a recomputation would give
calculateOrbitRadius 100 0 2 = 12) and the new ring gw gets 19.5, so
ring radii in ordinal order are [27, 19.5]: not monotonically
non-decreasing. -/
theorem C4_counterexample :
    C4afterState.groupOrbits.map (fun p => p.2.orbitRadius) = [27, 19.5]
    ∧ (assocFind "gz" C4afterState.groupOrbits).map GroupOrbit.orbitRadius = some 27
    ∧ calculateOrbitRadius 100 0 2 = 12
    ∧ ¬ (27 : Rat) ≤ 19.5 := by
  decide

/-- C1: FALSIFIED ON A CONCRETE RUN. With p pinned and the refresh
moving p from group g1 to g0, the first reconciliation creates the new
body for p in ring g0 at the focus-scaled width (the pin is still
active), then unfocuses while removing the old body from ring g1;
running the same reconciliation again with the unchanged entity list
recomputes the width without the focus scale, so the scene changes. -/
theorem C1_counterexample :
    reconcile sqId 100 C1refresh [] (reconcile sqId 100 C1refresh [] C1pinnedState)
      ≠ reconcile sqId 100 C1refresh [] C1pinnedState := by
  decide


theorem mem_firstOccurrences {x : String} : ∀ {l : List String}, x ∈ firstOccurrences l → x ∈ l
  | [], h => by simp [firstOccurrences] at h
  | k :: ks, h => by
    rw [firstOccurrences] at h
    rcases List.mem_cons.mp h with h1 | h2
    · exact h1 ▸ List.mem_cons_self _ _
    · exact List.mem_cons_of_mem _ (List.mem_of_mem_filter (mem_firstOccurrences h2))
termination_by l => l.length
decreasing_by
  simp only [List.length_cons]
  exact Nat.lt_succ_of_le (List.length_filter_le _ _)

theorem firstOccurrences_nodup : ∀ l : List String, (firstOccurrences l).Nodup
  | [] => by simp [firstOccurrences]
  | k :: ks => by
    rw [firstOccurrences]
    refine List.nodup_cons.mpr ⟨fun hmem => ?_, firstOccurrences_nodup _⟩
    have := List.mem_filter.mp (mem_firstOccurrences hmem)
    simp at this
termination_by l => l.length
decreasing_by
  simp only [List.length_cons]
  exact Nat.lt_succ_of_le (List.length_filter_le _ _)


theorem foldl_insertContainer (cs : List Container) :
    ∀ m : List (String × List Container),
      cs.foldl insertContainer m =
        m.map (fun p => (p.1, p.2 ++ cs.filter (fun c => c.group == p.1)))
        ++ ((firstOccurrences ((cs.map Container.group).filter
              (fun k => !(m.any (fun p => p.1 == k))))).map
            (fun k => (k, cs.filter (fun c => c.group == k)))) := by
  induction cs with
  | nil =>
    intro m
    simp [firstOccurrences]
  | cons c rest ih =>
    intro m
    rw [List.foldl_cons]
    by_cases hmem : m.any (fun p => p.1 == c.group) = true
    · -- the key already has a bucket: every entry with the key is extended
      have hins : insertContainer m c =
          m.map (fun p => if p.1 = c.group then (p.1, p.2 ++ [c]) else p) := by
        unfold insertContainer
        rw [if_pos hmem]
      rw [hins, ih, List.map_map]
      have hmap : ((fun p => (p.1, p.2 ++ rest.filter (fun c' => c'.group == p.1)))
            ∘ (fun p => if p.1 = c.group then (p.1, p.2 ++ [c]) else p))
          = (fun p : String × List Container =>
              (p.1, p.2 ++ (c :: rest).filter (fun c' => c'.group == p.1))) := by
        funext p
        by_cases hp : p.1 = c.group
        · simp only [Function.comp, if_pos hp, List.filter_cons]
          rw [show (c.group == p.1) = true from beq_iff_eq.mpr hp.symm]
          rw [if_pos rfl, List.append_assoc, List.singleton_append]
        · simp only [Function.comp, if_neg hp, List.filter_cons]
          rw [show (c.group == p.1) = false from beq_eq_false_iff_ne.mpr fun h => hp h.symm]
          simp
      have hany : ∀ k, ((m.map (fun p => if p.1 = c.group then (p.1, p.2 ++ [c]) else p)).any
            (fun p => p.1 == k)) = m.any (fun p => p.1 == k) := by
        intro k
        rw [List.any_map]
        congr 1
        funext p
        by_cases hp : p.1 = c.group <;> simp [Function.comp, hp]
      have hfilt : ((rest.map Container.group).filter
            (fun k => !((m.map (fun p => if p.1 = c.group then (p.1, p.2 ++ [c]) else p)).any
              (fun p => p.1 == k))))
          = ((rest.map Container.group).filter (fun k => !(m.any (fun p => p.1 == k)))) := by
        apply List.filter_congr
        intro k _
        rw [hany]
      rw [hmap, hfilt]
      have hnew : (((c :: rest).map Container.group).filter
            (fun k => !(m.any (fun p => p.1 == k))))
          = ((rest.map Container.group).filter (fun k => !(m.any (fun p => p.1 == k)))) := by
        rw [List.map_cons, List.filter_cons]
        rw [show (!(m.any (fun p => p.1 == c.group))) = false by rw [hmem]; rfl]
        simp
      rw [hnew]
      congr 1
      apply List.map_congr_left
      intro k hk
      have hkmem := List.mem_filter.mp (mem_firstOccurrences hk)
      have hkne : (c.group == k) = false := by
        cases hkc : (c.group == k : Bool)
        · rfl
        · exfalso
          have hk2 : k = c.group := (beq_iff_eq.mp hkc).symm
          rw [hk2, hmem] at hkmem
          simp at hkmem
      rw [List.filter_cons, hkne]
      rw [if_neg Bool.false_ne_true]
    · -- a fresh key: a new bucket is appended at the end
      have hins : insertContainer m c = m ++ [(c.group, [c])] := by
        unfold insertContainer
        rw [if_neg hmem]
      rw [hins, ih, List.map_append]
      have hanyapp : ∀ k, ((m ++ [(c.group, [c])]).any (fun p => p.1 == k))
          = (m.any (fun p => p.1 == k) || (c.group == k)) := by
        intro k
        rw [List.any_append]
        simp
      have hfilt : ((rest.map Container.group).filter
            (fun k => !((m ++ [(c.group, [c])]).any (fun p => p.1 == k))))
          = (((rest.map Container.group).filter (fun k => !(m.any (fun p => p.1 == k)))).filter
              (fun k => k != c.group)) := by
        rw [List.filter_filter]
        apply List.filter_congr
        intro k _
        rw [hanyapp, Bool.not_or, bne]
        cases hc : (c.group == k : Bool)
        · rw [beq_eq_false_iff_ne.mpr fun h => (beq_eq_false_iff_ne.mp hc) h.symm, Bool.and_comm]
        · rw [beq_iff_eq.mpr (beq_iff_eq.mp hc).symm, Bool.and_comm]
      rw [hfilt]
      have hmemF : (m.any fun p => p.1 == c.group) = false := by
        cases h : (m.any fun p => p.1 == c.group)
        · rfl
        · exact absurd h hmem
      have hLc : (((c :: rest).map Container.group).filter
            (fun k => !(m.any fun p => p.1 == k)))
          = c.group :: ((rest.map Container.group).filter (fun k => !(m.any fun p => p.1 == k))) := by
        rw [List.map_cons, List.filter_cons, hmemF, Bool.not_false]
        rw [if_pos rfl]
      rw [hLc, firstOccurrences, List.map_cons, List.append_assoc, List.singleton_append]
      rw [List.map_nil, List.cons_append, List.nil_append, List.map_cons]
      congr 1
      · apply List.map_congr_left
        intro p hp
        have hpne : (c.group == p.1) = false := by
          refine beq_eq_false_iff_ne.mpr fun h => hmem ?_
          refine List.any_eq_true.mpr ⟨p, hp, ?_⟩
          exact beq_iff_eq.mpr h.symm
        rw [List.filter_cons, hpne, if_neg Bool.false_ne_true]
      · congr 1
        · rw [List.filter_cons, show (c.group == c.group) = true from beq_iff_eq.mpr rfl]
          rw [if_pos rfl]
        · apply List.map_congr_left
          intro k hk
          have hkprop := List.mem_filter.mp (mem_firstOccurrences hk)
          have hkne : (c.group == k) = false := by
            refine beq_eq_false_iff_ne.mpr fun h => ?_
            have h2 := hkprop.2
            rw [bne, show (k == c.group) = true from beq_iff_eq.mpr h.symm] at h2
            simp at h2
          rw [List.filter_cons, hkne, if_neg Bool.false_ne_true]


theorem groupContainers_eq (cs : List Container) :
    groupContainers cs =
      (firstOccurrences (cs.map Container.group)).map (fun k =>
        { key := k
          title := formatGroupTitle k
          containers := cs.filter (fun c => c.group == k)
          dominantState := getDominantState (cs.filter (fun c => c.group == k)) }) := by
  unfold groupContainers
  rw [foldl_insertContainer cs []]
  simp only [List.map_nil, List.any_nil, Bool.not_false, List.filter_true, List.nil_append,
    List.map_map]
  rfl

theorem groupContainers_keys (cs : List Container) :
    (groupContainers cs).map MCGroup.key = firstOccurrences (cs.map Container.group) := by
  rw [groupContainers_eq, List.map_map]
  exact Eq.trans (List.map_congr_left fun k _ => rfl) (List.map_id _)

theorem getDominantState_eq_spec (l : List Container) :
    getDominantState l = specDominantState l := by
  unfold getDominantState specDominantState
  simp only [List.any_map, List.any_eq_true, Function.comp, beq_iff_eq]
  simp [List.mem_map]

/-- C5: the grouping function returns one group per distinct key, in
first-encounter order of keys (so it is stable across identical inputs);
each group's member list is exactly the input entities carrying its key
(in input order), its dominant state is the first match in the priority
running > restarting > paused > exited over those members, and its title
is the formatted key. -/
theorem C5_grouping_contract (cs : List Container) :
    ((groupContainers cs).map MCGroup.key = firstOccurrences (cs.map Container.group))
    ∧ ((groupContainers cs).map MCGroup.key).Nodup
    ∧ ∀ g ∈ groupContainers cs,
        g.containers = cs.filter (fun c => c.group == g.key)
        ∧ g.dominantState = specDominantState g.containers
        ∧ g.title = formatGroupTitle g.key := by
  have hkeys : (groupContainers cs).map MCGroup.key = firstOccurrences (cs.map Container.group) := by
    rw [groupContainers_eq, List.map_map]
    have : (MCGroup.key ∘ fun k =>
        ({ key := k, title := formatGroupTitle k,
           containers := cs.filter (fun c => c.group == k),
           dominantState := getDominantState (cs.filter (fun c => c.group == k)) } : MCGroup))
        = id := by
      funext k
      rfl
    rw [this, List.map_id]
  refine ⟨hkeys, ?_, ?_⟩
  · rw [hkeys]
    exact firstOccurrences_nodup _
  · intro g hg
    rw [groupContainers_eq] at hg
    obtain ⟨k, _, rfl⟩ := List.mem_map.mp hg
    exact ⟨rfl, getDominantState_eq_spec _, rfl⟩

/-- C5 witness: the contract evaluated on a concrete entity list at the
concrete group it produces for key web-api. -/
theorem C5_grouping_contract_witness :
    C5group.containers = C5entities.filter (fun c => c.group == C5group.key)
    ∧ C5group.dominantState = specDominantState C5group.containers
    ∧ C5group.title = formatGroupTitle C5group.key :=
  (C5_grouping_contract C5entities).2.2 C5group (by decide)


/-!
Association-list lemmas (assocFind / assocUpdate).
-/

theorem assocFind_assocUpdate_map {α β : Type} (k key : String) (f : α → α) (h : α → β)
    (hf : ∀ v, h (f v) = h v) :
    ∀ l : List (String × α),
      (assocFind k (assocUpdate key f l)).map h = (assocFind k l).map h
  | [] => rfl
  | p :: ps => by
    unfold assocUpdate
    rw [List.map_cons]
    by_cases hpk : p.1 = key
    · rw [if_pos hpk]
      rw [assocFind, assocFind]
      by_cases hp : p.1 = k
      · rw [if_pos hp, if_pos hp]
        simp [hf]
      · rw [if_neg hp, if_neg hp]
        exact assocFind_assocUpdate_map k key f h hf ps
    · rw [if_neg hpk]
      rw [assocFind, assocFind]
      by_cases hp : p.1 = k
      · rw [if_pos hp, if_pos hp]
      · rw [if_neg hp, if_neg hp]
        exact assocFind_assocUpdate_map k key f h hf ps

theorem assocUpdate_map_fst {α : Type} (k : String) (f : α → α) (l : List (String × α)) :
    (assocUpdate k f l).map Prod.fst = l.map Prod.fst := by
  unfold assocUpdate
  rw [List.map_map]
  apply List.map_congr_left
  intro p _
  by_cases hp : p.1 = k <;> simp [hp]

theorem assocFind_append_of_isSome {α : Type} {k : String} {l : List (String × α)}
    (l' : List (String × α)) (h : (assocFind k l).isSome) :
    assocFind k (l ++ l') = assocFind k l := by
  induction l with
  | nil => simp [assocFind] at h
  | cons p ps ih =>
    rw [List.cons_append, assocFind, assocFind]
    by_cases hp : p.1 = k
    · rw [if_pos hp, if_pos hp]
    · rw [if_neg hp, if_neg hp]
      rw [assocFind, if_neg hp] at h
      exact ih h

theorem assocFind_append_of_none {α : Type} {k : String} {l : List (String × α)}
    (l' : List (String × α)) (h : assocFind k l = none) :
    assocFind k (l ++ l') = assocFind k l' := by
  induction l with
  | nil => rfl
  | cons p ps ih =>
    rw [List.cons_append, assocFind]
    rw [assocFind] at h
    by_cases hp : p.1 = k
    · rw [if_pos hp] at h
      exact absurd h (by simp)
    · rw [if_neg hp] at h
      rw [if_neg hp]
      exact ih h

theorem assocFind_none_of_forall {α : Type} {k : String} {l : List (String × α)}
    (h : ∀ p ∈ l, p.1 ≠ k) : assocFind k l = none := by
  induction l with
  | nil => rfl
  | cons p ps ih =>
    rw [assocFind, if_neg (h p (List.mem_cons_self _ _))]
    exact ih fun q hq => h q (List.mem_cons_of_mem _ hq)

theorem assocFind_filter_key_pos {α : Type} {k : String} (pk : String → Bool)
    (hk : pk k = true) :
    ∀ l : List (String × α),
      assocFind k (l.filter (fun p => pk p.1)) = assocFind k l
  | [] => rfl
  | p :: ps => by
    rw [List.filter_cons]
    by_cases hp : p.1 = k
    · have h1 : pk p.1 = true := by rw [hp]; exact hk
      rw [if_pos h1, assocFind, assocFind, if_pos hp, if_pos hp]
    · cases hpk : pk p.1
      · rw [if_neg Bool.false_ne_true, assocFind, if_neg hp]
        exact assocFind_filter_key_pos pk hk ps
      · rw [if_pos rfl, assocFind, assocFind, if_neg hp, if_neg hp]
        exact assocFind_filter_key_pos pk hk ps

theorem assocFind_filter_of_none {α : Type} {k : String} {l : List (String × α)}
    (f : String × α → Bool) (h : assocFind k l = none) :
    assocFind k (l.filter f) = none := by
  induction l with
  | nil => rfl
  | cons p ps ih =>
    rw [assocFind] at h
    by_cases hp : p.1 = k
    · rw [if_pos hp] at h
      exact absurd h (by simp)
    · rw [if_neg hp] at h
      rw [List.filter_cons]
      cases hf : f p
      · rw [if_neg Bool.false_ne_true]
        exact ih h
      · rw [if_pos rfl, assocFind, if_neg hp]
        exact ih h

/-!
Frame lemmas: which parts of the engine state each pass can touch, and
in particular that no pass after ring creation ever rewrites a ring's
orbitRadius.
-/

theorem foldl_display_only {γ : Type} (f : EngineState → γ → EngineState)
    (hf : ∀ s x, ∃ d, f s x = { s with display := d }) :
    ∀ (l : List γ) (st : EngineState), ∃ d, l.foldl f st = { st with display := d }
  | [], st => ⟨st.display, rfl⟩
  | x :: xs, st => by
    obtain ⟨d1, h1⟩ := hf st x
    obtain ⟨d2, h2⟩ := foldl_display_only f hf xs (f st x)
    refine ⟨d2, ?_⟩
    rw [List.foldl_cons, h2, h1]

theorem stageRemovePlanetVisuals_display_only (pl : Planet) (st : EngineState) :
    ∃ d, stageRemovePlanetVisuals pl st = { st with display := d } := by
  unfold stageRemovePlanetVisuals
  obtain ⟨d, hd⟩ := foldl_display_only
    (fun s n => s.removeFromStage (ObjId.particle n)) (fun s x => ⟨_, rfl⟩) pl.particles
    (((st.removeFromStage (ObjId.sprite pl.objId)).removeFromStage
      (ObjId.glow pl.objId)).removeFromStage (ObjId.rim pl.objId))
  exact ⟨d, hd⟩

theorem foldl_addParticles_groupOrbits (l : List Nat) (st : EngineState) :
    (l.foldl (fun s n => s.addToBase (ObjId.particle n)) st).groupOrbits = st.groupOrbits := by
  obtain ⟨d, hd⟩ := foldl_display_only (fun s n => s.addToBase (ObjId.particle n))
    (fun s x => ⟨_, rfl⟩) l st
  rw [hd]

theorem foldl_addParticles_nextObjId (l : List Nat) (st : EngineState) :
    (l.foldl (fun s n => s.addToBase (ObjId.particle n)) st).nextObjId = st.nextObjId := by
  obtain ⟨d, hd⟩ := foldl_display_only (fun s n => s.addToBase (ObjId.particle n))
    (fun s x => ⟨_, rfl⟩) l st
  rw [hd]

theorem foldl_removeParticles_groupOrbits (l : List Nat) (st : EngineState) :
    (l.foldl (fun s n => s.removeFromStage (ObjId.particle n)) st).groupOrbits
      = st.groupOrbits := by
  obtain ⟨d, hd⟩ := foldl_display_only (fun s n => s.removeFromStage (ObjId.particle n))
    (fun s x => ⟨_, rfl⟩) l st
  rw [hd]

theorem radii_assocUpdate (k key : String) (f : GroupOrbit → GroupOrbit)
    (l : List (String × GroupOrbit)) (hf : ∀ r, (f r).orbitRadius = r.orbitRadius) :
    (assocFind k (assocUpdate key f l)).map GroupOrbit.orbitRadius
      = (assocFind k l).map GroupOrbit.orbitRadius :=
  assocFind_assocUpdate_map k key f GroupOrbit.orbitRadius hf l

theorem unfocusPlanet_radii (st : EngineState) (k : String) :
    (assocFind k (unfocusPlanet st).groupOrbits).map GroupOrbit.orbitRadius
      = (assocFind k st.groupOrbits).map GroupOrbit.orbitRadius := by
  unfold unfocusPlanet
  split
  · rfl
  · dsimp only
    split
    · rfl
    · dsimp only
      refine Eq.trans (radii_assocUpdate k _ _ _ ?_) rfl
      exact fun r => rfl

theorem removePlanetStep_radii (gkey : String) (mids : List String) (st : EngineState)
    (q : String × Planet) (k : String) :
    (assocFind k (removePlanetStep gkey mids st q).groupOrbits).map GroupOrbit.orbitRadius
      = (assocFind k st.groupOrbits).map GroupOrbit.orbitRadius := by
  unfold removePlanetStep
  split
  · rfl
  · dsimp only
    obtain ⟨d, hd⟩ := stageRemovePlanetVisuals_display_only q.2
      (if st.focusedPlanetId = some q.1 then unfocusPlanet st else st)
    rw [hd]
    dsimp only
    refine Eq.trans (radii_assocUpdate k _ _ _ ?_) ?_
    · exact fun r => rfl
    · split
      · exact unfocusPlanet_radii st k
      · rfl

theorem foldl_removePlanetStep_radii (gkey : String) (mids : List String) (k : String) :
    ∀ (l : List (String × Planet)) (st : EngineState),
      (assocFind k (l.foldl (removePlanetStep gkey mids) st).groupOrbits).map
          GroupOrbit.orbitRadius
        = (assocFind k st.groupOrbits).map GroupOrbit.orbitRadius
  | [], st => rfl
  | q :: qs, st => by
    rw [List.foldl_cons, foldl_removePlanetStep_radii gkey mids k qs]
    exact removePlanetStep_radii gkey mids st q k

theorem removeStalePlanets_radii (g : MCGroup) (st : EngineState) (k : String) :
    (assocFind k (removeStalePlanets g st).groupOrbits).map GroupOrbit.orbitRadius
      = (assocFind k st.groupOrbits).map GroupOrbit.orbitRadius := by
  unfold removeStalePlanets
  split
  · rfl
  · exact foldl_removePlanetStep_radii _ _ _ _ _

theorem createPlanetIfMissing_radii (g : MCGroup) (ring : GroupOrbit) (st : EngineState)
    (ci : Nat × Container) (k : String) :
    (assocFind k (createPlanetIfMissing g ring st ci).groupOrbits).map GroupOrbit.orbitRadius
      = (assocFind k st.groupOrbits).map GroupOrbit.orbitRadius := by
  unfold createPlanetIfMissing
  split
  · rfl
  · dsimp only
    refine Eq.trans (radii_assocUpdate k _ _ _ ?_) rfl
    exact fun r => rfl

theorem updatePlanetRecord_radii (sq : Rat → Rat) (g : MCGroup) (st : EngineState)
    (c : Container) (k : String) :
    (assocFind k (updatePlanetRecord sq g st c).groupOrbits).map GroupOrbit.orbitRadius
      = (assocFind k st.groupOrbits).map GroupOrbit.orbitRadius := by
  unfold updatePlanetRecord
  split
  · rfl
  · split
    · rfl
    · dsimp only
      refine Eq.trans (radii_assocUpdate k _ _ _ ?_) ?_
      · exact fun r => rfl
      · split
        · dsimp only
          rw [foldl_addParticles_groupOrbits]
        · split
          · dsimp only
            rw [foldl_removeParticles_groupOrbits]
          · rfl

theorem upsertPlanet_radii (sq : Rat → Rat) (g : MCGroup) (st : EngineState)
    (ci : Nat × Container) (k : String) :
    (assocFind k (upsertPlanet sq g st ci).groupOrbits).map GroupOrbit.orbitRadius
      = (assocFind k st.groupOrbits).map GroupOrbit.orbitRadius := by
  unfold upsertPlanet
  split
  · rfl
  · rw [updatePlanetRecord_radii, createPlanetIfMissing_radii]

theorem foldl_upsertPlanet_radii (sq : Rat → Rat) (g : MCGroup) (k : String) :
    ∀ (l : List (Nat × Container)) (st : EngineState),
      (assocFind k (l.foldl (upsertPlanet sq g) st).groupOrbits).map GroupOrbit.orbitRadius
        = (assocFind k st.groupOrbits).map GroupOrbit.orbitRadius
  | [], st => rfl
  | ci :: cis, st => by
    rw [List.foldl_cons, foldl_upsertPlanet_radii sq g k cis]
    exact upsertPlanet_radii sq g st ci k


theorem removeRingVisuals_display_only (r : GroupOrbit) (st : EngineState) :
    ∃ d, removeRingVisuals r st = { st with display := d } := by
  unfold removeRingVisuals
  exact foldl_display_only _ (fun s q => stageRemovePlanetVisuals_display_only q.2 s) r.planets st

theorem removeStaleRings_groupOrbits (keys : List String) (st : EngineState) :
    (removeStaleRings keys st).groupOrbits
      = st.groupOrbits.filter (fun p => keys.contains p.1) := by
  unfold removeStaleRings
  obtain ⟨d, hd⟩ := foldl_display_only (fun s p => removeRingVisuals p.2 s)
    (fun s p => removeRingVisuals_display_only p.2 s)
    (st.groupOrbits.filter (fun p => !(keys.contains p.1))) st
  dsimp only
  rw [hd]

theorem processGroup_radii (sq : Rat → Rat) (V : Rat) (n : Nat) (ig : Nat × MCGroup)
    (acc : EngineState × List Rat) (k : String)
    (h : (assocFind k acc.1.groupOrbits).isSome) :
    (assocFind k ((processGroup sq V n ig acc).1.groupOrbits)).map GroupOrbit.orbitRadius
      = (assocFind k acc.1.groupOrbits).map GroupOrbit.orbitRadius := by
  unfold processGroup
  dsimp only
  split
  · rw [foldl_upsertPlanet_radii, removeStalePlanets_radii]
    dsimp only
    refine radii_assocUpdate k _ _ _ ?_
    exact fun r => rfl
  · rw [foldl_upsertPlanet_radii, removeStalePlanets_radii]
    dsimp only
    refine Eq.trans (radii_assocUpdate k _ _ _ ?_) ?_
    · exact fun r => rfl
    · rw [assocFind_append_of_isSome _ h]

theorem processGroup_creates (sq : Rat → Rat) (V : Rat) (n : Nat) (ig : Nat × MCGroup)
    (acc : EngineState × List Rat)
    (h : assocFind ig.2.key acc.1.groupOrbits = none) :
    (assocFind ig.2.key ((processGroup sq V n ig acc).1.groupOrbits)).map GroupOrbit.orbitRadius
      = some (calculateOrbitRadius V ig.1 n) := by
  unfold processGroup
  dsimp only
  split
  · rename_i heq
    rw [h] at heq
    exact absurd heq (by simp)
  · rw [foldl_upsertPlanet_radii, removeStalePlanets_radii]
    dsimp only
    refine Eq.trans (radii_assocUpdate ig.2.key _ _ _ ?_) ?_
    · exact fun r => rfl
    · rw [assocFind_append_of_none _ h]
      rw [assocFind, if_pos rfl]
      rfl

theorem processGroup_radii_none (sq : Rat → Rat) (V : Rat) (n : Nat) (ig : Nat × MCGroup)
    (acc : EngineState × List Rat) (k : String) (hk : k ≠ ig.2.key)
    (h : assocFind k acc.1.groupOrbits = none) :
    assocFind k ((processGroup sq V n ig acc).1.groupOrbits) = none := by
  have hmap : (assocFind k ((processGroup sq V n ig acc).1.groupOrbits)).map
      GroupOrbit.orbitRadius = none := by
    unfold processGroup
    dsimp only
    split
    · rw [foldl_upsertPlanet_radii, removeStalePlanets_radii]
      dsimp only
      refine Eq.trans (radii_assocUpdate k _ _ _ ?_) ?_
      · exact fun r => rfl
      · rw [h]
        rfl
    · rw [foldl_upsertPlanet_radii, removeStalePlanets_radii]
      dsimp only
      refine Eq.trans (radii_assocUpdate k _ _ _ ?_) ?_
      · exact fun r => rfl
      · rw [assocFind_append_of_none _ h]
        rw [assocFind, if_neg (fun hh => hk hh.symm)]
        rfl
  exact Option.map_eq_none'.mp hmap

theorem processGroups_radii (sq : Rat → Rat) (V : Rat) (n : Nat) (k : String) :
    ∀ (l : List (Nat × MCGroup)) (acc : EngineState × List Rat),
      (assocFind k acc.1.groupOrbits).isSome →
      (assocFind k ((processGroups sq V n l acc).1.groupOrbits)).map GroupOrbit.orbitRadius
        = (assocFind k acc.1.groupOrbits).map GroupOrbit.orbitRadius
  | [], acc, _ => rfl
  | ig :: rest, acc, h => by
    rw [processGroups]
    have hstep := processGroup_radii sq V n ig acc k h
    have hsome : (assocFind k ((processGroup sq V n ig acc).1.groupOrbits)).isSome := by
      have := congrArg Option.isSome hstep
      rw [Option.isSome_map', Option.isSome_map'] at this
      rw [this]
      exact h
    rw [processGroups_radii sq V n k rest _ hsome, hstep]

theorem processGroups_creates (sq : Rat → Rat) (V : Rat) (n : Nat) :
    ∀ (l : List (Nat × MCGroup)) (acc : EngineState × List Rat) (ig : Nat × MCGroup),
      ig ∈ l → (l.map (fun p => p.2.key)).Nodup →
      assocFind ig.2.key acc.1.groupOrbits = none →
      (assocFind ig.2.key ((processGroups sq V n l acc).1.groupOrbits)).map
          GroupOrbit.orbitRadius
        = some (calculateOrbitRadius V ig.1 n)
  | [], _, ig, hmem, _, _ => absurd hmem (List.not_mem_nil ig)
  | hd :: rest, acc, ig, hmem, hnodup, hnone => by
    rw [processGroups]
    rcases List.mem_cons.mp hmem with heq | hmem2
    · subst heq
      have hcreated := processGroup_creates sq V n ig acc hnone
      have hsome : (assocFind ig.2.key ((processGroup sq V n ig acc).1.groupOrbits)).isSome := by
        have := congrArg Option.isSome hcreated
        rw [Option.isSome_map'] at this
        rw [this]
        rfl
      rw [processGroups_radii sq V n ig.2.key rest _ hsome, hcreated]
    · have hne : ig.2.key ≠ hd.2.key := by
        intro hh
        have : hd.2.key ∈ rest.map (fun p => p.2.key) :=
          hh ▸ List.mem_map.mpr ⟨ig, hmem2, rfl⟩
        exact (List.nodup_cons.mp hnodup).1 this
      have hstill := processGroup_radii_none sq V n hd acc ig.2.key hne hnone
      exact processGroups_creates sq V n rest _ ig hmem2 (List.nodup_cons.mp hnodup).2 hstill

/-- C4: FALSIFIED (see the counterexample theorem) and amended. What the
code actually does: a radius is computed only when a ring is created
(from the group's index in that refresh and that refresh's total group
count); a data refresh never recomputes a surviving ring's radius, even
when the group count changed; all rings are recomputed together only by
the resize handler. -/
theorem C4_radius_update_policy (sq : Rat → Rat) (V : Rat) (cs : List Container)
    (rand : List Rat) (st : EngineState) :
    (∀ k : String, (assocFind k st.groupOrbits).isSome →
      k ∈ (groupContainers cs).map MCGroup.key →
      (assocFind k ((reconcile sq V cs rand st).groupOrbits)).map GroupOrbit.orbitRadius
        = (assocFind k st.groupOrbits).map GroupOrbit.orbitRadius)
    ∧ (∀ ig ∈ (groupContainers cs).enum, assocFind ig.2.key st.groupOrbits = none →
      (assocFind ig.2.key ((reconcile sq V cs rand st).groupOrbits)).map GroupOrbit.orbitRadius
        = some (calculateOrbitRadius V ig.1 (groupContainers cs).length))
    ∧ (handleResize V st).groupOrbits.map (fun p => p.2.orbitRadius)
        = (List.range st.groupOrbits.length).map
            (fun i => calculateOrbitRadius V i st.groupOrbits.length) := by
  refine ⟨?_, ?_, ?_⟩
  · intro k hsome hmem
    unfold reconcile
    dsimp only
    have hst1 : assocFind k (removeStaleRings ((groupContainers cs).map MCGroup.key) st).groupOrbits
        = assocFind k st.groupOrbits := by
      rw [removeStaleRings_groupOrbits]
      exact assocFind_filter_key_pos _ (List.elem_iff.mpr hmem) _
    rw [processGroups_radii _ _ _ _ _ _ (by rw [hst1]; exact hsome), hst1]
  · intro ig hig hnone
    unfold reconcile
    dsimp only
    have hst1 : assocFind ig.2.key
        (removeStaleRings ((groupContainers cs).map MCGroup.key) st).groupOrbits = none := by
      rw [removeStaleRings_groupOrbits]
      exact assocFind_filter_of_none _ hnone
    refine processGroups_creates sq V _ _ _ ig hig ?_ hst1
    have : ((groupContainers cs).enum.map (fun p => p.2.key))
        = (groupContainers cs).map MCGroup.key := by
      have h1 : ((groupContainers cs).enum.map (fun p => p.2.key))
          = ((groupContainers cs).enum.map Prod.snd).map MCGroup.key := by
        rw [List.map_map]
        rfl
      rw [h1, List.enum_map_snd]
    rw [this, groupContainers_keys]
    exact firstOccurrences_nodup _
  · unfold handleResize
    dsimp only
    rw [List.map_map]
    have h1 : ((fun p => p.2.orbitRadius) ∘ fun p : Nat × (String × GroupOrbit) =>
        (p.2.1, { p.2.2 with orbitRadius := calculateOrbitRadius V p.1 st.groupOrbits.length }))
        = fun p : Nat × (String × GroupOrbit) => calculateOrbitRadius V p.1 st.groupOrbits.length := by
      funext p
      rfl
    rw [h1]
    have h2 : (fun p : Nat × (String × GroupOrbit) =>
        calculateOrbitRadius V p.1 st.groupOrbits.length)
        = (fun i => calculateOrbitRadius V i st.groupOrbits.length) ∘ Prod.fst := by
      funext p
      rfl
    rw [h2, ← List.map_map, List.enum_map_fst]


theorem C4_radius_update_policy_witness :
    (assocFind "gz" C4afterState.groupOrbits).map GroupOrbit.orbitRadius
      = (assocFind "gz" C4threeRings.groupOrbits).map GroupOrbit.orbitRadius :=
  (C4_radius_update_policy sqId 100
    [sampleEntity "z" "gz" 0 0, sampleEntity "w" "gw" 0 0] [0] C4threeRings).1
    "gz" (by decide) (by decide)


theorem assocFind_assocUpdate_self {α : Type} (k : String) (f : α → α) :
    ∀ l : List (String × α), assocFind k (assocUpdate k f l) = (assocFind k l).map f
  | [] => rfl
  | p :: ps => by
    unfold assocUpdate
    rw [List.map_cons]
    by_cases hp : p.1 = k
    · rw [if_pos hp, assocFind, assocFind, if_pos hp, if_pos hp]
      rfl
    · rw [if_neg hp, assocFind, assocFind, if_neg hp, if_neg hp]
      exact assocFind_assocUpdate_self k f ps

theorem createPlanetIfMissing_focusedPlanetId (g : MCGroup) (ring : GroupOrbit)
    (st0 : EngineState) (ci : Nat × Container) :
    (createPlanetIfMissing g ring st0 ci).focusedPlanetId = st0.focusedPlanetId := by
  unfold createPlanetIfMissing
  split <;> rfl

theorem found_after_append (k id : String) (pl : Planet) (l : List (String × GroupOrbit))
    (ring : GroupOrbit) (hring : assocFind k l = some ring)
    (hnone : assocFind id ring.planets = none) :
    ∃ ring1, assocFind k (assocUpdate k
        (fun r => { r with planets := r.planets ++ [(id, pl)] }) l) = some ring1
      ∧ (assocFind id ring1.planets).isSome := by
  refine ⟨{ ring with planets := ring.planets ++ [(id, pl)] }, ?_, ?_⟩
  · rw [assocFind_assocUpdate_self, hring]
    rfl
  · show (assocFind id (ring.planets ++ [(id, pl)])).isSome
    rw [assocFind_append_of_none _ hnone, assocFind, if_pos rfl]
    rfl

theorem createPlanetIfMissing_found (g : MCGroup) (ring : GroupOrbit) (st0 : EngineState)
    (ci : Nat × Container) (hring : assocFind g.key st0.groupOrbits = some ring) :
    ∃ ring1, assocFind g.key (createPlanetIfMissing g ring st0 ci).groupOrbits = some ring1
      ∧ (assocFind ci.2.id ring1.planets).isSome := by
  unfold createPlanetIfMissing
  split
  · rename_i pl0 hpl
    exact ⟨ring, hring, by rw [hpl]; rfl⟩
  · rename_i hpl
    dsimp only
    exact found_after_append g.key ci.2.id _ _ ring hring hpl

theorem updatePlanetRecord_found (sq : Rat → Rat) (g : MCGroup) (st1 : EngineState)
    (c : Container) (ring1 : GroupOrbit) (pl0 : Planet)
    (hring : assocFind g.key st1.groupOrbits = some ring1)
    (hpl : assocFind c.id ring1.planets = some pl0) :
    (findPlanet (updatePlanetRecord sq g st1 c) g.key c.id).map Planet.container = some c
    ∧ (findPlanet (updatePlanetRecord sq g st1 c) g.key c.id).map Planet.orbitSpeed
        = some (specOrbitSpeed (c.cpuPercent.getD 0))
    ∧ (findPlanet (updatePlanetRecord sq g st1 c) g.key c.id).map Planet.width
        = some ((if st1.focusedPlanetId = some c.id then theme.hover.focusScale else 1)
            * (2 * specPlanetSize sq (c.memoryPercent.getD 0))) := by
  unfold updatePlanetRecord
  split
  · rename_i hnone
    rw [hring] at hnone
    cases hnone
  · rename_i r hr
    rw [hring] at hr
    injection hr with hr
    subst hr
    split
    · rename_i hnone
      rw [hpl] at hnone
      cases hnone
    · rename_i q hq
      rw [hpl] at hq
      injection hq with hq
      subst hq
      unfold findPlanet
      dsimp only
      split
      · cases hc1 : ((c.cpuPercent.getD 0 > 50 : Bool) || c.state == "restarting")
            && pl0.particles.isEmpty with
        | false =>
          rw [if_neg Bool.false_ne_true]
          cases hc2 : !((c.cpuPercent.getD 0 > 50 : Bool) || c.state == "restarting")
              && !pl0.particles.isEmpty with
          | false =>
            rw [if_neg Bool.false_ne_true]
            dsimp only
            simp only [assocFind_assocUpdate_self, hring, hpl, Option.map_some',
              Option.some_bind, Option.some.injEq]
            unfold specPlanetSize
            dsimp only
            refine ⟨trivial, rfl, by ring⟩
          | true =>
            rw [if_pos rfl]
            dsimp only
            simp only [assocFind_assocUpdate_self, foldl_removeParticles_groupOrbits,
              hring, hpl, Option.map_some', Option.some_bind, Option.some.injEq]
            unfold specPlanetSize
            dsimp only
            refine ⟨trivial, rfl, by ring⟩
        | true =>
          rw [if_pos rfl]
          dsimp only
          simp only [assocFind_assocUpdate_self, foldl_addParticles_groupOrbits,
            hring, hpl, Option.map_some', Option.some_bind, Option.some.injEq]
          unfold specPlanetSize
          dsimp only
          refine ⟨trivial, rfl, by ring⟩
      · cases hc1 : ((c.cpuPercent.getD 0 > 50 : Bool) || c.state == "restarting")
            && pl0.particles.isEmpty with
        | false =>
          rw [if_neg Bool.false_ne_true]
          cases hc2 : !((c.cpuPercent.getD 0 > 50 : Bool) || c.state == "restarting")
              && !pl0.particles.isEmpty with
          | false =>
            rw [if_neg Bool.false_ne_true]
            dsimp only
            simp only [assocFind_assocUpdate_self, hring, hpl, Option.map_some',
              Option.some_bind, Option.some.injEq]
            unfold specPlanetSize
            dsimp only
            refine ⟨trivial, rfl, by ring⟩
          | true =>
            rw [if_pos rfl]
            dsimp only
            simp only [assocFind_assocUpdate_self, foldl_removeParticles_groupOrbits,
              hring, hpl, Option.map_some', Option.some_bind, Option.some.injEq]
            unfold specPlanetSize
            dsimp only
            refine ⟨trivial, rfl, by ring⟩
        | true =>
          rw [if_pos rfl]
          dsimp only
          simp only [assocFind_assocUpdate_self, foldl_addParticles_groupOrbits,
            hring, hpl, Option.map_some', Option.some_bind, Option.some.injEq]
          unfold specPlanetSize
          dsimp only
          refine ⟨trivial, rfl, by ring⟩

/-- C8: for every body processed in a refresh whose group ring exists
(every ring exists by the time its members are processed), the updated
planet record carries exactly the spec formulas: orbit speed
0.05 + (load/100)*0.45, rendered width = diameter of
minRadius + sqrt(mem/100)*(cap - minRadius) with the bucket cap switched
at memory > 70 (times the focus scale exactly when the body is the
focused one), a missing metric defaulting to zero via Option.getD; and
the high-memory bucket cap is strictly smaller than the normal cap. -/
theorem C8_body_update_formulas (sq : Rat → Rat) (g : MCGroup) (st0 : EngineState)
    (ci : Nat × Container) (h : (assocFind g.key st0.groupOrbits).isSome) :
    ((findPlanet (upsertPlanet sq g st0 ci) g.key ci.2.id).map Planet.container = some ci.2
      ∧ (findPlanet (upsertPlanet sq g st0 ci) g.key ci.2.id).map Planet.orbitSpeed
          = some (specOrbitSpeed (ci.2.cpuPercent.getD 0))
      ∧ (findPlanet (upsertPlanet sq g st0 ci) g.key ci.2.id).map Planet.width
          = some ((if st0.focusedPlanetId = some ci.2.id then theme.hover.focusScale else 1)
              * (2 * specPlanetSize sq (ci.2.memoryPercent.getD 0))))
    ∧ theme.planet.largeMaxRadius < theme.planet.maxRadius := by
  constructor
  · unfold upsertPlanet
    split
    · rename_i hnone
      rw [hnone] at h
      cases h
    · rename_i ring hring
      obtain ⟨ring1, hring1, hpl1⟩ := createPlanetIfMissing_found g ring st0 ci hring
      obtain ⟨pl0, hpl0⟩ := Option.isSome_iff_exists.mp hpl1
      have hres := updatePlanetRecord_found sq g _ ci.2 ring1 pl0 hring1 hpl0
      rw [createPlanetIfMissing_focusedPlanetId] at hres
      exact hres
  · show (12 : Rat) < 18
    decide


theorem C8_body_update_formulas_witness :
    ((findPlanet (upsertPlanet sqId
          { key := "gz", title := "Gz", containers := [sampleEntity "z" "gz" 20 30],
            dominantState := "running" }
          C4threeRings (0, sampleEntity "z" "gz" 20 30)) "gz" "z").map Planet.container
        = some (sampleEntity "z" "gz" 20 30)
      ∧ (findPlanet (upsertPlanet sqId
          { key := "gz", title := "Gz", containers := [sampleEntity "z" "gz" 20 30],
            dominantState := "running" }
          C4threeRings (0, sampleEntity "z" "gz" 20 30)) "gz" "z").map Planet.orbitSpeed
        = some (specOrbitSpeed ((sampleEntity "z" "gz" 20 30).cpuPercent.getD 0))
      ∧ (findPlanet (upsertPlanet sqId
          { key := "gz", title := "Gz", containers := [sampleEntity "z" "gz" 20 30],
            dominantState := "running" }
          C4threeRings (0, sampleEntity "z" "gz" 20 30)) "gz" "z").map Planet.width
        = some ((if C4threeRings.focusedPlanetId = some "z" then theme.hover.focusScale else 1)
            * (2 * specPlanetSize sqId ((sampleEntity "z" "gz" 20 30).memoryPercent.getD 0))))
    ∧ theme.planet.largeMaxRadius < theme.planet.maxRadius :=
  C8_body_update_formulas sqId
    { key := "gz", title := "Gz", containers := [sampleEntity "z" "gz" 20 30],
      dominantState := "running" }
    C4threeRings (0, sampleEntity "z" "gz" 20 30) (by decide)


theorem assocFind_isSome_of_mem_fst {α : Type} {k : String} :
    ∀ {l : List (String × α)}, k ∈ l.map Prod.fst → (assocFind k l).isSome
  | [], h => absurd h (List.not_mem_nil k)
  | p :: ps, h => by
    rw [assocFind]
    by_cases hp : p.1 = k
    · rw [if_pos hp]
      rfl
    · rw [if_neg hp]
      rw [List.map_cons] at h
      rcases List.mem_cons.mp h with h1 | h2
      · exact absurd h1.symm hp
      · exact assocFind_isSome_of_mem_fst h2

theorem not_mem_of_assocFind_none {α : Type} {k : String} :
    ∀ {l : List (String × α)}, assocFind k l = none → k ∉ l.map Prod.fst := by
  intro l hnone hmem
  have := assocFind_isSome_of_mem_fst hmem
  rw [hnone] at this
  cases this

theorem mem_of_assocFind_some {α : Type} {k : String} {v : α} :
    ∀ {l : List (String × α)}, assocFind k l = some v → (k, v) ∈ l
  | [], h => by cases h
  | p :: ps, h => by
    rw [assocFind] at h
    by_cases hp : p.1 = k
    · rw [if_pos hp] at h
      injection h with h
      exact List.mem_cons.mpr (Or.inl (Prod.ext hp h).symm)
    · rw [if_neg hp] at h
      exact List.mem_cons_of_mem p (mem_of_assocFind_some h)

theorem assocFind_of_mem_nodup {α : Type} {k : String} {v : α} :
    ∀ {l : List (String × α)}, (l.map Prod.fst).Nodup → (k, v) ∈ l → assocFind k l = some v
  | p :: ps, hnd, hm => by
    rw [assocFind]
    rcases List.mem_cons.mp hm with h1 | h2
    · refine Eq.trans (if_pos ?_) ?_
      · rw [← h1]
      · rw [← h1]
    · by_cases hp : p.1 = k
      · exfalso
        have hk : k ∈ ps.map Prod.fst := List.mem_map.mpr ⟨(k, v), h2, rfl⟩
        rw [List.map_cons] at hnd
        exact (List.nodup_cons.mp hnd).1 (hp ▸ hk)
      · rw [if_neg hp]
        exact assocFind_of_mem_nodup (List.nodup_cons.mp (List.map_cons Prod.fst p ps ▸ hnd)).2 h2

theorem assocUpdate_eq_self {α : Type} {k : String} {f : α → α} {l : List (String × α)}
    (h : ∀ p ∈ l, p.1 = k → f p.2 = p.2) : assocUpdate k f l = l := by
  unfold assocUpdate
  refine Eq.trans (List.map_congr_left ?_) (List.map_id _)
  intro p hp
  by_cases hk : p.1 = k
  · rw [if_pos hk, h p hp hk]
    rfl
  · rw [if_neg hk]
    rfl

theorem assocFind_assocUpdate_ne {α : Type} {k key : String} (hne : k ≠ key) (f : α → α) :
    ∀ l : List (String × α), assocFind k (assocUpdate key f l) = assocFind k l
  | [] => rfl
  | p :: ps => by
    unfold assocUpdate
    rw [List.map_cons]
    by_cases hp : p.1 = key
    · rw [if_pos hp, assocFind, assocFind]
      have hne2 : ¬(p.1 = k) := fun hh => hne (hh ▸ hp ▸ rfl)
      rw [if_neg hne2, if_neg hne2]
      exact assocFind_assocUpdate_ne hne f ps
    · rw [if_neg hp, assocFind, assocFind]
      by_cases hq : p.1 = k
      · rw [if_pos hq, if_pos hq]
      · rw [if_neg hq, if_neg hq]
        exact assocFind_assocUpdate_ne hne f ps

theorem foldl_id_of {σ γ : Type} (f : σ → γ → σ) :
    ∀ (l : List γ) (st : σ), (∀ x ∈ l, ∀ s, f s x = s) → l.foldl f st = st
  | [], _, _ => rfl
  | x :: xs, st, h => by
    rw [List.foldl_cons, h x (List.mem_cons_self x xs) st]
    exact foldl_id_of f xs st (fun y hy => h y (List.mem_cons_of_mem x hy))


theorem foldl_fix {σ γ : Type} (f : σ → γ → σ) (R : σ) :
    ∀ l : List γ, (∀ x ∈ l, f R x = R) → l.foldl f R = R
  | [], _ => rfl
  | x :: xs, h => by
    rw [List.foldl_cons, h x (List.mem_cons_self x xs)]
    exact foldl_fix f R xs (fun y hy => h y (List.mem_cons_of_mem x hy))

theorem removeStaleRings_id (keys : List String) (st : EngineState)
    (h : ∀ p ∈ st.groupOrbits, keys.contains p.1 = true) :
    removeStaleRings keys st = st := by
  unfold removeStaleRings
  dsimp only
  have hstale : st.groupOrbits.filter (fun p => !(keys.contains p.1)) = [] := by
    rw [List.filter_eq_nil_iff]
    intro p hp
    rw [h p hp]
    decide
  rw [hstale, List.foldl_nil, List.filter_eq_self.mpr h]

theorem removeStalePlanets_id (g : MCGroup) (st : EngineState)
    (h : ∀ ring, assocFind g.key st.groupOrbits = some ring →
      ∀ q ∈ ring.planets, (g.containers.map Container.id).contains q.1 = true) :
    removeStalePlanets g st = st := by
  unfold removeStalePlanets
  split
  · rfl
  · rename_i ring hring
    refine foldl_id_of _ _ _ ?_
    intro q hq s
    unfold removePlanetStep
    rw [if_pos (h ring hring q hq)]

theorem assocUpdate_eq_self_of_nodup {α : Type} {k : String} {f : α → α}
    {l : List (String × α)} (hnd : (l.map Prod.fst).Nodup) {v : α}
    (hfind : assocFind k l = some v) (hv : f v = v) : assocUpdate k f l = l := by
  refine assocUpdate_eq_self ?_
  intro p hp hpk
  have h2 : assocFind k l = some p.2 := by
    refine assocFind_of_mem_nodup hnd ?_
    rw [← hpk]
    exact hp
  rw [hfind] at h2
  injection h2 with h2
  rw [← h2, hv]

theorem updatePlanetRecord_id (sq : Rat → Rat) (g : MCGroup) (st : EngineState) (c : Container)
    (hkeysN : (st.groupOrbits.map Prod.fst).Nodup)
    (hring : ∀ ring, assocFind g.key st.groupOrbits = some ring →
      (ring.planets.map Prod.fst).Nodup
      ∧ ∀ pl, assocFind c.id ring.planets = some pl →
          PlanetSettled sq st.focusedPlanetId c pl) :
    updatePlanetRecord sq g st c = st := by
  unfold updatePlanetRecord
  split
  · rfl
  · rename_i ring1 hr
    split
    · rfl
    · rename_i pl0 hq
      dsimp only
      obtain ⟨hplN, hset⟩ := hring ring1 hr
      obtain ⟨hc, hsp, hw, hpart⟩ := hset pl0 hq
      rw [hpart, Bool.and_not_self, Bool.not_not, Bool.not_and_self,
        if_neg Bool.false_ne_true, if_neg Bool.false_ne_true]
      dsimp only
      refine Eq.trans
        (congrArg (fun go => ({ st with groupOrbits := go } : EngineState)) ?_) rfl
      refine assocUpdate_eq_self_of_nodup hkeysN hr ?_
      dsimp only
      refine Eq.trans
        (congrArg (fun pls => ({ ring1 with planets := pls } : GroupOrbit)) ?_) rfl
      refine assocUpdate_eq_self_of_nodup hplN hq ?_
      dsimp only
      simp only [specPlanetSize] at hw
      rw [← hsp, ← hw, ← hc]

theorem upsertPlanet_id (sq : Rat → Rat) (g : MCGroup) (st : EngineState) (ci : Nat × Container)
    (hkeysN : (st.groupOrbits.map Prod.fst).Nodup)
    (hring : ∀ ring, assocFind g.key st.groupOrbits = some ring →
      (ring.planets.map Prod.fst).Nodup
      ∧ (assocFind ci.2.id ring.planets).isSome
      ∧ ∀ pl, assocFind ci.2.id ring.planets = some pl →
          PlanetSettled sq st.focusedPlanetId ci.2 pl) :
    upsertPlanet sq g st ci = st := by
  unfold upsertPlanet
  split
  · rfl
  · rename_i ring hr
    obtain ⟨hplN, hsome, hset⟩ := hring ring hr
    have hcreate : createPlanetIfMissing g ring st ci = st := by
      unfold createPlanetIfMissing
      split
      · rfl
      · rename_i hnone
        rw [hnone] at hsome
        cases hsome
    rw [hcreate]
    refine updatePlanetRecord_id sq g st ci.2 hkeysN ?_
    intro r hrr
    rw [hr] at hrr
    injection hrr with hrr
    rw [← hrr]
    exact ⟨hplN, hset⟩

theorem processGroup_id (sq : Rat → Rat) (V : Rat) (N : Nat) (ig : Nat × MCGroup)
    (R : EngineState) (r : List Rat)
    (hkeysN : (R.groupOrbits.map Prod.fst).Nodup)
    (hset : ∃ ring, assocFind ig.2.key R.groupOrbits = some ring
      ∧ RingSettled sq R.focusedPlanetId ig.2 ring) :
    processGroup sq V N ig (R, r) = (R, r) := by
  obtain ⟨ring, hr, hgrp, hsub, hplN, hmembers⟩ := hset
  unfold processGroup
  dsimp only
  split
  · dsimp only
    have h1 : assocUpdate ig.2.key (fun q => { q with group := ig.2 }) R.groupOrbits
        = R.groupOrbits := by
      refine assocUpdate_eq_self_of_nodup hkeysN hr ?_
      show ({ ring with group := ig.2 } : GroupOrbit) = ring
      rw [← hgrp]
    rw [h1]
    have hstA : ({ R with groupOrbits := R.groupOrbits } : EngineState) = R := rfl
    rw [hstA]
    have hremove : removeStalePlanets ig.2 R = R := by
      refine removeStalePlanets_id ig.2 R ?_
      intro ring2 hr2 q hq
      rw [hr] at hr2
      injection hr2 with hr2
      rw [← hr2] at hq
      exact List.elem_iff.mpr (hsub q hq)
    rw [hremove]
    have hupserts : (ig.2.containers.enum).foldl (upsertPlanet sq ig.2) R = R := by
      refine foldl_fix _ R _ ?_
      intro ci hci
      have hcmem : ci.2 ∈ ig.2.containers :=
        List.getElem?_mem (List.mem_enum_iff_getElem?.mp hci)
      obtain ⟨pl, hpl, hplset⟩ := hmembers ci.2 hcmem
      refine upsertPlanet_id sq ig.2 R ci hkeysN ?_
      intro ring2 hr2
      rw [hr] at hr2
      injection hr2 with hr2
      rw [← hr2]
      refine ⟨hplN, by rw [hpl]; rfl, ?_⟩
      intro pl2 hpl2
      rw [hpl] at hpl2
      injection hpl2 with hpl2
      rw [← hpl2]
      exact hplset
    rw [hupserts]
  · rename_i hnone
    rw [hr] at hnone
    cases hnone

theorem processGroups_fix (sq : Rat → Rat) (V : Rat) (N : Nat) (R : EngineState) :
    ∀ (l : List (Nat × MCGroup)) (r : List Rat),
      (∀ ig ∈ l, ∀ r2, processGroup sq V N ig (R, r2) = (R, r2)) →
      processGroups sq V N l (R, r) = (R, r)
  | [], _, _ => rfl
  | ig :: rest, r, h => by
    rw [processGroups, h ig (List.mem_cons_self ig rest) r]
    exact processGroups_fix sq V N R rest r
      (fun x hx r2 => h x (List.mem_cons_of_mem ig hx) r2)

theorem reconcile_id (sq : Rat → Rat) (V : Rat) (cs : List Container) (rand : List Rat)
    (R : EngineState) (h : Reconciled sq cs R) : reconcile sq V cs rand R = R := by
  obtain ⟨hsub, hnd, hset⟩ := h
  unfold reconcile
  dsimp only
  rw [removeStaleRings_id _ _ (fun p hp => List.elem_iff.mpr (hsub p hp))]
  have hfix : processGroups sq V (groupContainers cs).length (groupContainers cs).enum
      (R, rand) = (R, rand) := by
    refine processGroups_fix sq V _ R _ rand ?_
    intro ig hig r2
    exact processGroup_id sq V _ ig R r2 hnd
      (hset ig.2 (List.getElem?_mem (List.mem_enum_iff_getElem?.mp hig)))
  rw [hfix]


theorem mem_groupContainers {cs : List Container} {g : MCGroup} (h : g ∈ groupContainers cs) :
    g.containers = cs.filter (fun c => c.group == g.key) := by
  rw [groupContainers_eq] at h
  obtain ⟨k, _, hk⟩ := List.mem_map.mp h
  rw [← hk]

theorem enum_map_snd_comp {α β : Type} (f : α → β) (l : List α) :
    l.enum.map (fun p => f p.2) = l.map f := by
  have h : (fun p : Nat × α => f p.2) = f ∘ Prod.snd := rfl
  rw [h, ← List.map_map, List.enum_map_snd]

theorem exists_enum_pair {α : Type} {c : α} {l : List α} (h : c ∈ l) :
    ∃ i, (i, c) ∈ l.enum := by
  obtain ⟨i, hi, hc⟩ := List.mem_iff_getElem.mp h
  refine ⟨i, List.mem_enum_iff_getElem?.mpr ?_⟩
  rw [List.getElem?_eq_getElem hi, hc]

theorem createPlanetIfMissing_char (g : MCGroup) (ring : GroupOrbit) (st0 : EngineState)
    (ci : Nat × Container) (hring : assocFind g.key st0.groupOrbits = some ring) :
    (createPlanetIfMissing g ring st0 ci).groupOrbits.map Prod.fst
      = st0.groupOrbits.map Prod.fst
    ∧ (∀ k, k ≠ g.key → assocFind k (createPlanetIfMissing g ring st0 ci).groupOrbits
        = assocFind k st0.groupOrbits)
    ∧ (assocFind g.key (createPlanetIfMissing g ring st0 ci).groupOrbits).map
          (fun r => r.planets.map Prod.fst)
      = some (if (assocFind ci.2.id ring.planets).isSome then ring.planets.map Prod.fst
          else ring.planets.map Prod.fst ++ [ci.2.id])
    ∧ (assocFind g.key (createPlanetIfMissing g ring st0 ci).groupOrbits).map GroupOrbit.group
      = some ring.group
    ∧ (∀ k, k ≠ ci.2.id → (assocFind g.key (createPlanetIfMissing g ring st0 ci).groupOrbits).bind
        (fun r => assocFind k r.planets) = assocFind k ring.planets)
    ∧ ((assocFind g.key (createPlanetIfMissing g ring st0 ci).groupOrbits).bind
        (fun r => assocFind ci.2.id r.planets)).isSome := by
  unfold createPlanetIfMissing
  split
  · rename_i pl0 hfound
    refine ⟨rfl, fun k _ => rfl, ?_, ?_, fun k _ => ?_, ?_⟩
    · rw [hring, hfound]
      rfl
    · rw [hring]
      rfl
    · rw [hring]
      rfl
    · rw [hring]
      show (assocFind ci.2.id ring.planets).isSome = true
      rw [hfound]
      rfl
  · rename_i hnone
    dsimp only
    refine ⟨?_, fun k hk => ?_, ?_, ?_, fun k hk => ?_, ?_⟩
    · exact assocUpdate_map_fst g.key _ st0.groupOrbits
    · exact assocFind_assocUpdate_ne hk _ st0.groupOrbits
    · refine Eq.trans (congrArg (fun o => o.map (fun r => r.planets.map Prod.fst))
        (assocFind_assocUpdate_self g.key _ st0.groupOrbits)) ?_
      rw [hring, hnone]
      simp only [Option.map_some', List.map_append, Option.isSome_none,
        if_neg Bool.false_ne_true]
      rfl
    · refine Eq.trans (congrArg (fun o => o.map GroupOrbit.group)
        (assocFind_assocUpdate_self g.key _ st0.groupOrbits)) ?_
      rw [hring]
      rfl
    · refine Eq.trans (congrArg (fun o => o.bind (fun r => assocFind k r.planets))
        (assocFind_assocUpdate_self g.key _ st0.groupOrbits)) ?_
      rw [hring]
      simp only [Option.map_some', Option.some_bind]
      show assocFind k (ring.planets ++ _) = _
      cases hfk : assocFind k ring.planets with
      | some v =>
        rw [assocFind_append_of_isSome _ (by rw [hfk]; rfl)]
        exact hfk
      | none =>
        rw [assocFind_append_of_none _ hfk]
        rw [assocFind, if_neg (fun hh => hk hh.symm)]
        rfl
    · refine Eq.trans (congrArg (fun o => (o.bind
          (fun r => assocFind ci.2.id r.planets)).isSome)
        (assocFind_assocUpdate_self g.key _ st0.groupOrbits)) ?_
      rw [hring]
      simp only [Option.map_some', Option.some_bind]
      show (assocFind ci.2.id (ring.planets ++ _)).isSome = _
      rw [assocFind_append_of_none _ hnone, assocFind, if_pos rfl]
      rfl


theorem updatePlanetRecord_frame (sq : Rat → Rat) (g : MCGroup) (st1 : EngineState)
    (c : Container) (ring1 : GroupOrbit) (pl0 : Planet)
    (hring : assocFind g.key st1.groupOrbits = some ring1)
    (hpl : assocFind c.id ring1.planets = some pl0) :
    (updatePlanetRecord sq g st1 c).focusedPlanetId = st1.focusedPlanetId
    ∧ (updatePlanetRecord sq g st1 c).groupOrbits.map Prod.fst
        = st1.groupOrbits.map Prod.fst
    ∧ (∀ k, k ≠ g.key → assocFind k (updatePlanetRecord sq g st1 c).groupOrbits
        = assocFind k st1.groupOrbits)
    ∧ (assocFind g.key (updatePlanetRecord sq g st1 c).groupOrbits).map
        (fun r => r.planets.map Prod.fst) = some (ring1.planets.map Prod.fst)
    ∧ (assocFind g.key (updatePlanetRecord sq g st1 c).groupOrbits).map GroupOrbit.group
        = some ring1.group
    ∧ (∀ k, k ≠ c.id → (assocFind g.key (updatePlanetRecord sq g st1 c).groupOrbits).bind
        (fun r => assocFind k r.planets) = assocFind k ring1.planets)
    ∧ (findPlanet (updatePlanetRecord sq g st1 c) g.key c.id).map
        (fun pl => pl.particles.isEmpty)
      = some (!((c.cpuPercent.getD 0 > 50 : Bool) || c.state == "restarting")) := by
  unfold updatePlanetRecord
  split
  · rename_i hnone
    rw [hring] at hnone
    cases hnone
  · rename_i r hr
    rw [hring] at hr
    injection hr with hr
    subst hr
    split
    · rename_i hnone
      rw [hpl] at hnone
      cases hnone
    · rename_i q hq
      rw [hpl] at hq
      injection hq with hq
      subst hq
      dsimp only
      cases hc1 : ((c.cpuPercent.getD 0 > 50 : Bool) || c.state == "restarting")
          && pl0.particles.isEmpty with
      | false =>
        rw [if_neg Bool.false_ne_true]
        cases hc2 : !((c.cpuPercent.getD 0 > 50 : Bool) || c.state == "restarting")
            && !pl0.particles.isEmpty with
        | false =>
          rw [if_neg Bool.false_ne_true]
          dsimp only
          refine ⟨rfl, ?_, fun k hk => ?_, ?_, ?_, fun k hk => ?_, ?_⟩
          · exact assocUpdate_map_fst g.key _ st1.groupOrbits
          · exact assocFind_assocUpdate_ne hk _ st1.groupOrbits
          · refine Eq.trans (congrArg (fun o => o.map (fun r => r.planets.map Prod.fst))
              (assocFind_assocUpdate_self g.key _ st1.groupOrbits)) ?_
            rw [hring]
            simp only [Option.map_some']
            exact congrArg some (assocUpdate_map_fst c.id _ ring1.planets)
          · refine Eq.trans (congrArg (fun o => o.map GroupOrbit.group)
              (assocFind_assocUpdate_self g.key _ st1.groupOrbits)) ?_
            rw [hring]
            rfl
          · refine Eq.trans (congrArg (fun o => o.bind (fun r => assocFind k r.planets))
              (assocFind_assocUpdate_self g.key _ st1.groupOrbits)) ?_
            rw [hring]
            simp only [Option.map_some', Option.some_bind]
            exact assocFind_assocUpdate_ne hk _ ring1.planets
          · unfold findPlanet
            rw [assocFind_assocUpdate_self, hring]
            simp only [Option.map_some', Option.some_bind]
            rw [assocFind_assocUpdate_self, hpl]
            simp only [Option.map_some']
            cases hcond : ((c.cpuPercent.getD 0 > 50 : Bool) || c.state == "restarting") with
            | false =>
              cases hemp : pl0.particles.isEmpty with
              | false =>
                rw [hcond, hemp] at hc2
                exact absurd hc2 (by decide)
              | true => rfl
            | true =>
              cases hemp : pl0.particles.isEmpty with
              | false => rfl
              | true =>
                rw [hcond, hemp] at hc1
                exact absurd hc1 (by decide)
        | true =>
          rw [if_pos rfl]
          dsimp only
          obtain ⟨d, hd⟩ := foldl_display_only
            (fun s n => s.removeFromStage (ObjId.particle n))
            (fun s x => ⟨_, rfl⟩) pl0.particles st1
          rw [hd]
          refine ⟨rfl, ?_, fun k hk => ?_, ?_, ?_, fun k hk => ?_, ?_⟩
          · exact assocUpdate_map_fst g.key _ st1.groupOrbits
          · exact assocFind_assocUpdate_ne hk _ st1.groupOrbits
          · refine Eq.trans (congrArg (fun o => o.map (fun r => r.planets.map Prod.fst))
              (assocFind_assocUpdate_self g.key _ st1.groupOrbits)) ?_
            rw [hring]
            simp only [Option.map_some']
            exact congrArg some (assocUpdate_map_fst c.id _ ring1.planets)
          · refine Eq.trans (congrArg (fun o => o.map GroupOrbit.group)
              (assocFind_assocUpdate_self g.key _ st1.groupOrbits)) ?_
            rw [hring]
            rfl
          · refine Eq.trans (congrArg (fun o => o.bind (fun r => assocFind k r.planets))
              (assocFind_assocUpdate_self g.key _ st1.groupOrbits)) ?_
            rw [hring]
            simp only [Option.map_some', Option.some_bind]
            exact assocFind_assocUpdate_ne hk _ ring1.planets
          · unfold findPlanet
            rw [assocFind_assocUpdate_self, hring]
            simp only [Option.map_some', Option.some_bind]
            rw [assocFind_assocUpdate_self, hpl]
            simp only [Option.map_some']
            rw [Bool.and_eq_true] at hc2
            rw [hc2.1]
            rfl
      | true =>
        rw [if_pos rfl]
        dsimp only
        obtain ⟨d, hd⟩ := foldl_display_only
          (fun s n => s.addToBase (ObjId.particle n))
          (fun s x => ⟨_, rfl⟩) ((List.range 6).map (fun i => st1.nextObjId + i)) st1
        rw [hd]
        refine ⟨rfl, ?_, fun k hk => ?_, ?_, ?_, fun k hk => ?_, ?_⟩
        · exact assocUpdate_map_fst g.key _ st1.groupOrbits
        · exact assocFind_assocUpdate_ne hk _ st1.groupOrbits
        · refine Eq.trans (congrArg (fun o => o.map (fun r => r.planets.map Prod.fst))
            (assocFind_assocUpdate_self g.key _ st1.groupOrbits)) ?_
          rw [hring]
          simp only [Option.map_some']
          exact congrArg some (assocUpdate_map_fst c.id _ ring1.planets)
        · refine Eq.trans (congrArg (fun o => o.map GroupOrbit.group)
            (assocFind_assocUpdate_self g.key _ st1.groupOrbits)) ?_
          rw [hring]
          rfl
        · refine Eq.trans (congrArg (fun o => o.bind (fun r => assocFind k r.planets))
            (assocFind_assocUpdate_self g.key _ st1.groupOrbits)) ?_
          rw [hring]
          simp only [Option.map_some', Option.some_bind]
          exact assocFind_assocUpdate_ne hk _ ring1.planets
        · unfold findPlanet
          rw [assocFind_assocUpdate_self, hring]
          simp only [Option.map_some', Option.some_bind]
          rw [assocFind_assocUpdate_self, hpl]
          simp only [Option.map_some']
          rw [Bool.and_eq_true] at hc1
          rw [hc1.1]
          rfl


theorem upsertPlanet_char (sq : Rat → Rat) (g : MCGroup) (st0 : EngineState)
    (ci : Nat × Container) (ring : GroupOrbit)
    (hring : assocFind g.key st0.groupOrbits = some ring) :
    (upsertPlanet sq g st0 ci).focusedPlanetId = st0.focusedPlanetId
    ∧ (upsertPlanet sq g st0 ci).groupOrbits.map Prod.fst = st0.groupOrbits.map Prod.fst
    ∧ (∀ k, k ≠ g.key → assocFind k (upsertPlanet sq g st0 ci).groupOrbits
        = assocFind k st0.groupOrbits)
    ∧ (assocFind g.key (upsertPlanet sq g st0 ci).groupOrbits).map
        (fun r => r.planets.map Prod.fst)
      = some (if (assocFind ci.2.id ring.planets).isSome then ring.planets.map Prod.fst
          else ring.planets.map Prod.fst ++ [ci.2.id])
    ∧ (assocFind g.key (upsertPlanet sq g st0 ci).groupOrbits).map GroupOrbit.group
        = some ring.group
    ∧ (∀ k, k ≠ ci.2.id → (assocFind g.key (upsertPlanet sq g st0 ci).groupOrbits).bind
        (fun r => assocFind k r.planets) = assocFind k ring.planets)
    ∧ ∃ pl, (assocFind g.key (upsertPlanet sq g st0 ci).groupOrbits).bind
          (fun r => assocFind ci.2.id r.planets) = some pl
        ∧ PlanetSettled sq st0.focusedPlanetId ci.2 pl := by
  unfold upsertPlanet
  split
  · rename_i hnone
    rw [hring] at hnone
    cases hnone
  · rename_i ring0 hr0
    rw [hring] at hr0
    injection hr0 with hr0
    subst hr0
    obtain ⟨hBkeys, hBother, hBplkeys, hBgroup, hBoth, hBsome⟩ :=
      createPlanetIfMissing_char g ring st0 ci hring
    obtain ⟨ring1, hr1, hkeys1⟩ := Option.map_eq_some'.mp hBplkeys
    rw [hr1, Option.some_bind] at hBsome
    obtain ⟨pl0, hpl0⟩ := Option.isSome_iff_exists.mp hBsome
    obtain ⟨hfA, hfB, hfC, hfD, hfG, hfE, hfF⟩ :=
      updatePlanetRecord_frame sq g _ ci.2 ring1 pl0 hr1 hpl0
    obtain ⟨huC, huS, huW⟩ :=
      updatePlanetRecord_found sq g _ ci.2 ring1 pl0 hr1 hpl0
    rw [hr1, Option.map_some'] at hBgroup
    injection hBgroup with hBgroup
    refine ⟨hfA.trans (createPlanetIfMissing_focusedPlanetId g ring st0 ci),
      hfB.trans hBkeys,
      fun k hk => (hfC k hk).trans (hBother k hk),
      hfD.trans (congrArg some hkeys1),
      hfG.trans (congrArg some hBgroup),
      fun k hk => ?_, ?_⟩
    · refine (hfE k hk).trans ?_
      have h2 := hBoth k hk
      rw [hr1, Option.some_bind] at h2
      exact h2
    · obtain ⟨pl, hplT, hplc⟩ := Option.map_eq_some'.mp huC
      rw [hplT, Option.map_some'] at huS huW hfF
      injection huS with huS
      injection huW with huW
      injection hfF with hfF
      rw [createPlanetIfMissing_focusedPlanetId g ring st0 ci] at huW
      refine ⟨pl, hplT, hplc, huS, ?_, hfF⟩
      rw [huW]
      split
      · ring
      · ring


theorem upsert_foldl_char (sq : Rat → Rat) (g : MCGroup) :
    ∀ (l : List (Nat × Container)) (B : EngineState) (ring : GroupOrbit),
      assocFind g.key B.groupOrbits = some ring →
      (ring.planets.map Prod.fst).Nodup →
      (l.map (fun jc => jc.2.id)).Nodup →
      (l.foldl (upsertPlanet sq g) B).focusedPlanetId = B.focusedPlanetId
      ∧ (l.foldl (upsertPlanet sq g) B).groupOrbits.map Prod.fst
          = B.groupOrbits.map Prod.fst
      ∧ (∀ k, k ≠ g.key → assocFind k (l.foldl (upsertPlanet sq g) B).groupOrbits
          = assocFind k B.groupOrbits)
      ∧ ∃ ringT, assocFind g.key (l.foldl (upsertPlanet sq g) B).groupOrbits = some ringT
          ∧ ringT.group = ring.group
          ∧ (∀ x ∈ ringT.planets.map Prod.fst,
              x ∈ ring.planets.map Prod.fst ∨ x ∈ l.map (fun jc => jc.2.id))
          ∧ (ringT.planets.map Prod.fst).Nodup
          ∧ (∀ k, (∀ jc ∈ l, jc.2.id ≠ k) →
              assocFind k ringT.planets = assocFind k ring.planets)
          ∧ (∀ jc ∈ l, ∃ pl, assocFind jc.2.id ringT.planets = some pl
              ∧ PlanetSettled sq B.focusedPlanetId jc.2 pl)
  | [], B, ring, hring, hplN, _ =>
    ⟨rfl, rfl, fun _ _ => rfl,
      ⟨ring, hring, rfl, fun x hx => Or.inl hx, hplN, fun _ _ => rfl,
        fun jc hjc => absurd hjc (List.not_mem_nil jc)⟩⟩
  | jc :: rest, B, ring, hring, hplN, hlN => by
    obtain ⟨hA, hB, hC, hD, hG, hE, plj, hplj, hset⟩ :=
      upsertPlanet_char sq g B jc ring hring
    obtain ⟨ring1, hr1, hkeys1⟩ := Option.map_eq_some'.mp hD
    rw [hr1, Option.map_some'] at hG
    injection hG with hG
    rw [hr1, Option.some_bind] at hplj
    have hnd1 : (ring1.planets.map Prod.fst).Nodup := by
      by_cases hjs : (assocFind jc.2.id ring.planets).isSome = true
      · rw [if_pos hjs] at hkeys1
        rw [hkeys1]
        exact hplN
      · rw [if_neg hjs] at hkeys1
        rw [hkeys1]
        refine List.Nodup.append hplN (List.nodup_singleton _) ?_
        intro x hx1 hx2
        rw [List.mem_singleton] at hx2
        subst hx2
        exact (not_mem_of_assocFind_none (Option.not_isSome_iff_eq_none.mp hjs)) hx1
      -- note: List.Nodup.append signature check below
    have hrestN : (rest.map (fun jc => jc.2.id)).Nodup :=
      (List.nodup_cons.mp hlN).2
    have hheadN : jc.2.id ∉ rest.map (fun jc => jc.2.id) :=
      (List.nodup_cons.mp hlN).1
    obtain ⟨iA, iB, iC, ringT, hrT, hgT, hsubT, hndT, hpresT, hsetT⟩ :=
      upsert_foldl_char sq g rest (upsertPlanet sq g B jc) ring1 hr1 hnd1 hrestN
    rw [List.foldl_cons]
    refine ⟨iA.trans hA, iB.trans hB, fun k hk => (iC k hk).trans (hC k hk),
      ⟨ringT, hrT, hgT.trans hG, ?_, hndT, ?_, ?_⟩⟩
    · intro x hx
      rcases hsubT x hx with h1 | h2
      · rw [hkeys1] at h1
        by_cases hjs : (assocFind jc.2.id ring.planets).isSome = true
        · rw [if_pos hjs] at h1
          exact Or.inl h1
        · rw [if_neg hjs] at h1
          rcases List.mem_append.mp h1 with h3 | h4
          · exact Or.inl h3
          · rw [List.mem_singleton] at h4
            subst h4
            exact Or.inr (List.mem_map.mpr ⟨jc, List.mem_cons_self jc rest, rfl⟩)
      · refine Or.inr ?_
        rw [List.map_cons]
        exact List.mem_cons_of_mem _ h2
    · intro k hk
      have h1 := hpresT k (fun jc2 hjc2 => hk jc2 (List.mem_cons_of_mem jc hjc2))
      refine h1.trans ?_
      have h2 := hE k (hk jc (List.mem_cons_self jc rest)).symm
      rw [hr1, Option.some_bind] at h2
      exact h2
    · intro jc2 hjc2
      rcases List.mem_cons.mp hjc2 with hhd | htl
      · subst hhd
        have hne : ∀ jc3 ∈ rest, jc3.2.id ≠ jc2.2.id := by
          intro jc3 hjc3 heq
          exact hheadN (List.mem_map.mpr ⟨jc3, hjc3, heq⟩)
        have h1 := hpresT jc2.2.id hne
        refine ⟨plj, ?_, hset⟩
        rw [h1]
        exact hplj
      · obtain ⟨pl, hpl, hps⟩ := hsetT jc2 htl
        rw [hA] at hps
        exact ⟨pl, hpl, hps⟩


theorem foldl_removePlanetStep_char (gkey : String) (mids : List String) :
    ∀ (S : List (String × Planet)) (B : EngineState),
      (∀ q ∈ S, mids.contains q.1 = false → B.focusedPlanetId ≠ some q.1) →
      (S.foldl (removePlanetStep gkey mids) B).focusedPlanetId = B.focusedPlanetId
      ∧ (S.foldl (removePlanetStep gkey mids) B).groupOrbits.map Prod.fst
          = B.groupOrbits.map Prod.fst
      ∧ (∀ k, k ≠ gkey →
          assocFind k (S.foldl (removePlanetStep gkey mids) B).groupOrbits
            = assocFind k B.groupOrbits)
      ∧ (assocFind gkey (S.foldl (removePlanetStep gkey mids) B).groupOrbits).map
            GroupOrbit.group
          = (assocFind gkey B.groupOrbits).map GroupOrbit.group
      ∧ (assocFind gkey (S.foldl (removePlanetStep gkey mids) B).groupOrbits).map
            (fun r => r.planets)
          = (assocFind gkey B.groupOrbits).map (fun r =>
              r.planets.filter (fun x =>
                !(((S.filter (fun q => !(mids.contains q.1))).map Prod.fst).contains x.1)))
  | [], B, _ => by
    refine ⟨rfl, rfl, fun _ _ => rfl, rfl, ?_⟩
    rw [List.foldl_nil]
    cases hf : assocFind gkey B.groupOrbits with
    | none => rfl
    | some r =>
      simp only [Option.map_some']
      refine congrArg some (Eq.symm (List.filter_eq_self.mpr ?_))
      intro a _
      rfl
  | q :: S2, B, hfoc => by
    rw [List.foldl_cons]
    cases hq : mids.contains q.1 with
    | true =>
      have hstep : removePlanetStep gkey mids B q = B := by
        unfold removePlanetStep
        rw [if_pos hq]
      rw [hstep]
      have hfq : (q :: S2).filter (fun q2 => !(mids.contains q2.1))
          = S2.filter (fun q2 => !(mids.contains q2.1)) := by
        rw [List.filter_cons, hq]
        rfl
      rw [hfq]
      exact foldl_removePlanetStep_char gkey mids S2 B
        (fun q2 hq2 => hfoc q2 (List.mem_cons_of_mem q hq2))
    | false =>
      obtain ⟨d, hd⟩ := stageRemovePlanetVisuals_display_only q.2 B
      have hstep : removePlanetStep gkey mids B q
          = { ({ B with display := d } : EngineState) with
              groupOrbits := assocUpdate gkey
                (fun r => { r with planets := r.planets.filter (fun p => p.1 != q.1) })
                B.groupOrbits } := by
        unfold removePlanetStep
        rw [if_neg (by rw [hq]; exact Bool.false_ne_true)]
        dsimp only
        rw [if_neg (hfoc q (List.mem_cons_self q S2) hq), hd]
      rw [hstep]
      obtain ⟨iA, iB, iC, iD, iE⟩ := foldl_removePlanetStep_char gkey mids S2
        ({ ({ B with display := d } : EngineState) with
          groupOrbits := assocUpdate gkey
            (fun r => { r with planets := r.planets.filter (fun p => p.1 != q.1) })
            B.groupOrbits })
        (fun q2 hq2 hnm => hfoc q2 (List.mem_cons_of_mem q hq2) hnm)
      refine ⟨iA.trans rfl,
        iB.trans (assocUpdate_map_fst gkey
          (fun r => { r with planets := r.planets.filter (fun p => p.1 != q.1) })
          B.groupOrbits),
        fun k hk => (iC k hk).trans (assocFind_assocUpdate_ne hk
          (fun r => { r with planets := r.planets.filter (fun p => p.1 != q.1) })
          B.groupOrbits),
        ?_, ?_⟩
      · refine iD.trans ?_
        rw [assocFind_assocUpdate_self]
        cases hf : assocFind gkey B.groupOrbits with
        | none => rfl
        | some r => rfl
      · refine iE.trans ?_
        rw [assocFind_assocUpdate_self]
        cases hf : assocFind gkey B.groupOrbits with
        | none => rfl
        | some r =>
          simp only [Option.map_some']
          refine congrArg some ?_
          rw [List.filter_filter]
          have hrk : (q :: S2).filter (fun q2 => !(mids.contains q2.1))
              = q :: S2.filter (fun q2 => !(mids.contains q2.1)) := by
            rw [List.filter_cons, hq]
            rfl
          rw [hrk, List.map_cons]
          refine congrArg (fun p => r.planets.filter p) (funext fun x => ?_)
          rw [List.contains_cons, Bool.not_or, Bool.and_comm]
          rfl


theorem assocFind_append_single_ne {α : Type} {k key : String} (h : k ≠ key) (v : α)
    (l : List (String × α)) : assocFind k (l ++ [(key, v)]) = assocFind k l := by
  cases hf : assocFind k l with
  | some w =>
    rw [assocFind_append_of_isSome _ (by rw [hf]; rfl)]
    exact hf
  | none =>
    rw [assocFind_append_of_none _ hf]
    rw [assocFind, if_neg (fun hh => h hh.symm)]
    rfl

theorem ringSettled_planets_mem {mids : List String} {x : String × Planet}
    {ring0planets : List (String × Planet)}
    (hpl2mem : x ∈ (ring0planets.filter (fun p =>
      !(((ring0planets.filter (fun q => !(mids.contains q.1))).map Prod.fst).contains p.1)))) :
    mids.contains x.1 = true := by
  have hx0 : x ∈ ring0planets := List.mem_of_mem_filter hpl2mem
  have hlam := List.of_mem_filter hpl2mem
  cases hc : mids.contains x.1 with
  | true => rfl
  | false =>
    exfalso
    have hxr : x ∈ ring0planets.filter (fun q => !(mids.contains q.1)) := by
      refine List.mem_filter.mpr ⟨hx0, ?_⟩
      rw [hc]
      rfl
    have hxk : x.1 ∈ (ring0planets.filter (fun q => !(mids.contains q.1))).map Prod.fst :=
      List.mem_map.mpr ⟨x, hxr, rfl⟩
    have hcont : ((ring0planets.filter (fun q => !(mids.contains q.1))).map
        Prod.fst).contains x.1 = true := List.elem_iff.mpr hxk
    rw [hcont] at hlam
    cases hlam


theorem processGroup_settles (sq : Rat → Rat) (V : Rat) (N : Nat) (ig : Nat × MCGroup)
    (A : EngineState) (r : List Rat)
    (hmidsN : (ig.2.containers.map Container.id).Nodup)
    (horig : ∀ ring, assocFind ig.2.key A.groupOrbits = some ring →
      (ring.planets.map Prod.fst).Nodup
      ∧ ∀ q ∈ ring.planets, (ig.2.containers.map Container.id).contains q.1 = false →
          A.focusedPlanetId ≠ some q.1) :
    (processGroup sq V N ig (A, r)).1.focusedPlanetId = A.focusedPlanetId
    ∧ ((processGroup sq V N ig (A, r)).1.groupOrbits.map Prod.fst
          = A.groupOrbits.map Prod.fst
        ∨ ((processGroup sq V N ig (A, r)).1.groupOrbits.map Prod.fst
            = A.groupOrbits.map Prod.fst ++ [ig.2.key]
          ∧ assocFind ig.2.key A.groupOrbits = none))
    ∧ (∀ k, k ≠ ig.2.key →
        assocFind k (processGroup sq V N ig (A, r)).1.groupOrbits
          = assocFind k A.groupOrbits)
    ∧ ∃ ring, assocFind ig.2.key (processGroup sq V N ig (A, r)).1.groupOrbits = some ring
        ∧ RingSettled sq A.focusedPlanetId ig.2 ring := by
  unfold processGroup
  dsimp only
  split
  · rename_i ring0 hfound0
    dsimp only
    obtain ⟨hnd0, hfoc0⟩ := horig ring0 hfound0
    have hfind1 : assocFind ig.2.key (({ A with groupOrbits := assocUpdate ig.2.key (fun q => { q with group := ig.2 }) A.groupOrbits } : EngineState)).groupOrbits
        = some ({ ring0 with group := ig.2 } : GroupOrbit) := by
      show assocFind ig.2.key (assocUpdate ig.2.key (fun q => { q with group := ig.2 }) A.groupOrbits) = _
      rw [assocFind_assocUpdate_self, hfound0]
      rfl
    have hremove : removeStalePlanets ig.2 ({ A with groupOrbits := assocUpdate ig.2.key (fun q => { q with group := ig.2 }) A.groupOrbits } : EngineState)
        = ring0.planets.foldl (removePlanetStep ig.2.key (ig.2.containers.map Container.id)) ({ A with groupOrbits := assocUpdate ig.2.key (fun q => { q with group := ig.2 }) A.groupOrbits } : EngineState) := by
      unfold removeStalePlanets
      split
      · rename_i hnone
        rw [hfind1] at hnone
        cases hnone
      · rename_i ring1 hr1
        rw [hfind1] at hr1
        injection hr1 with hr1
        rw [← hr1]
    obtain ⟨rA, rB, rC, rD, rE⟩ := foldl_removePlanetStep_char ig.2.key
      (ig.2.containers.map Container.id) ring0.planets ({ A with groupOrbits := assocUpdate ig.2.key (fun q => { q with group := ig.2 }) A.groupOrbits } : EngineState)
      (fun q hq hnm => hfoc0 q hq hnm)
    rw [← hremove] at rA rB rC rD rE
    rw [hfind1, Option.map_some'] at rD rE
    obtain ⟨ring2, hring2, hpl2⟩ := Option.map_eq_some'.mp rE
    rw [hring2, Option.map_some'] at rD
    injection rD with rD
    have hnd2 : (ring2.planets.map Prod.fst).Nodup := by
      rw [hpl2]
      exact List.Nodup.sublist (List.Sublist.map Prod.fst (List.filter_sublist _)) hnd0
    have henum : ((ig.2.containers.enum).map (fun jc => jc.2.id)).Nodup := by
      rw [enum_map_snd_comp]
      exact hmidsN
    obtain ⟨uA, uB, uC, ringT, hrT, hgT, hsubT, hndT, hpresT, hsetT⟩ :=
      upsert_foldl_char sq ig.2 (ig.2.containers.enum)
        (removeStalePlanets ig.2 ({ A with groupOrbits := assocUpdate ig.2.key (fun q => { q with group := ig.2 }) A.groupOrbits } : EngineState)) ring2 hring2 hnd2 henum
    have hfocB : (removeStalePlanets ig.2 ({ A with groupOrbits := assocUpdate ig.2.key (fun q => { q with group := ig.2 }) A.groupOrbits } : EngineState)).focusedPlanetId
        = A.focusedPlanetId := rA.trans rfl
    refine ⟨uA.trans hfocB,
      Or.inl (uB.trans (rB.trans (assocUpdate_map_fst ig.2.key
        (fun q => { q with group := ig.2 }) A.groupOrbits))),
      fun k hk => (uC k hk).trans ((rC k hk).trans (assocFind_assocUpdate_ne hk
        (fun q => { q with group := ig.2 }) A.groupOrbits)),
      ⟨ringT, hrT, hgT.trans rD, ?_, hndT, ?_⟩⟩
    · intro q hq
      have hqk : q.1 ∈ ringT.planets.map Prod.fst := List.mem_map.mpr ⟨q, hq, rfl⟩
      rcases hsubT q.1 hqk with h1 | h2
      · obtain ⟨p, hpmem, hpk⟩ := List.mem_map.mp h1
        rw [hpl2] at hpmem
        have hcm := ringSettled_planets_mem hpmem
        rw [hpk] at hcm
        exact List.elem_iff.mp hcm
      · rw [enum_map_snd_comp] at h2
        exact h2
    · intro c hc
      obtain ⟨i, hienum⟩ := exists_enum_pair hc
      obtain ⟨pl, hpl, hps⟩ := hsetT (i, c) hienum
      rw [hfocB] at hps
      exact ⟨pl, hpl, hps⟩
  · rename_i hnone0
    dsimp only
    have hfind1 : assocFind ig.2.key (({ A with groupOrbits := assocUpdate ig.2.key (fun q => { q with group := ig.2 }) (A.groupOrbits ++ [(ig.2.key, ({ group := ig.2, orbitRadius := calculateOrbitRadius V ig.1 N, randomStartAngle := r.headD 0, planets := [] } : GroupOrbit))]) } : EngineState)).groupOrbits = some ({ group := ig.2, orbitRadius := calculateOrbitRadius V ig.1 N, randomStartAngle := r.headD 0, planets := [] } : GroupOrbit) := by
      show assocFind ig.2.key (assocUpdate ig.2.key (fun q => { q with group := ig.2 }) (A.groupOrbits ++ [(ig.2.key, ({ group := ig.2, orbitRadius := calculateOrbitRadius V ig.1 N, randomStartAngle := r.headD 0, planets := [] } : GroupOrbit))])) = _
      rw [assocFind_assocUpdate_self, assocFind_append_of_none _ hnone0]
      rw [assocFind, if_pos rfl]
      rfl
    have hremove : removeStalePlanets ig.2 ({ A with groupOrbits := assocUpdate ig.2.key (fun q => { q with group := ig.2 }) (A.groupOrbits ++ [(ig.2.key, ({ group := ig.2, orbitRadius := calculateOrbitRadius V ig.1 N, randomStartAngle := r.headD 0, planets := [] } : GroupOrbit))]) } : EngineState) = ({ A with groupOrbits := assocUpdate ig.2.key (fun q => { q with group := ig.2 }) (A.groupOrbits ++ [(ig.2.key, ({ group := ig.2, orbitRadius := calculateOrbitRadius V ig.1 N, randomStartAngle := r.headD 0, planets := [] } : GroupOrbit))]) } : EngineState) := by
      unfold removeStalePlanets
      split
      · rfl
      · rename_i ring1 hr1
        rw [hfind1] at hr1
        injection hr1 with hr1
        rw [← hr1]
        rfl
    have hring2 : assocFind ig.2.key (removeStalePlanets ig.2 ({ A with groupOrbits := assocUpdate ig.2.key (fun q => { q with group := ig.2 }) (A.groupOrbits ++ [(ig.2.key, ({ group := ig.2, orbitRadius := calculateOrbitRadius V ig.1 N, randomStartAngle := r.headD 0, planets := [] } : GroupOrbit))]) } : EngineState)).groupOrbits = some ({ group := ig.2, orbitRadius := calculateOrbitRadius V ig.1 N, randomStartAngle := r.headD 0, planets := [] } : GroupOrbit) := by
      rw [hremove]
      exact hfind1
    have henum : ((ig.2.containers.enum).map (fun jc => jc.2.id)).Nodup := by
      rw [enum_map_snd_comp]
      exact hmidsN
    obtain ⟨uA, uB, uC, ringT, hrT, hgT, hsubT, hndT, hpresT, hsetT⟩ :=
      upsert_foldl_char sq ig.2 (ig.2.containers.enum)
        (removeStalePlanets ig.2 ({ A with groupOrbits := assocUpdate ig.2.key (fun q => { q with group := ig.2 }) (A.groupOrbits ++ [(ig.2.key, ({ group := ig.2, orbitRadius := calculateOrbitRadius V ig.1 N, randomStartAngle := r.headD 0, planets := [] } : GroupOrbit))]) } : EngineState)) ({ group := ig.2, orbitRadius := calculateOrbitRadius V ig.1 N, randomStartAngle := r.headD 0, planets := [] } : GroupOrbit) hring2 List.nodup_nil henum
    have hfocB : (removeStalePlanets ig.2 ({ A with groupOrbits := assocUpdate ig.2.key (fun q => { q with group := ig.2 }) (A.groupOrbits ++ [(ig.2.key, ({ group := ig.2, orbitRadius := calculateOrbitRadius V ig.1 N, randomStartAngle := r.headD 0, planets := [] } : GroupOrbit))]) } : EngineState)).focusedPlanetId = A.focusedPlanetId := by
      rw [hremove]
    have hkeysC : (removeStalePlanets ig.2 ({ A with groupOrbits := assocUpdate ig.2.key (fun q => { q with group := ig.2 }) (A.groupOrbits ++ [(ig.2.key, ({ group := ig.2, orbitRadius := calculateOrbitRadius V ig.1 N, randomStartAngle := r.headD 0, planets := [] } : GroupOrbit))]) } : EngineState)).groupOrbits.map Prod.fst
        = A.groupOrbits.map Prod.fst ++ [ig.2.key] := by
      rw [hremove]
      show (assocUpdate ig.2.key (fun q => { q with group := ig.2 }) (A.groupOrbits ++ [(ig.2.key, ({ group := ig.2, orbitRadius := calculateOrbitRadius V ig.1 N, randomStartAngle := r.headD 0, planets := [] } : GroupOrbit))])).map Prod.fst = _
      rw [assocUpdate_map_fst, List.map_append]
      rfl
    refine ⟨uA.trans hfocB, Or.inr ⟨uB.trans hkeysC, hnone0⟩, fun k hk => ?_,
      ⟨ringT, hrT, hgT, ?_, hndT, ?_⟩⟩
    · refine (uC k hk).trans ?_
      rw [hremove]
      show assocFind k (assocUpdate ig.2.key (fun q => { q with group := ig.2 }) (A.groupOrbits ++ [(ig.2.key, ({ group := ig.2, orbitRadius := calculateOrbitRadius V ig.1 N, randomStartAngle := r.headD 0, planets := [] } : GroupOrbit))])) = _
      rw [assocFind_assocUpdate_ne hk, assocFind_append_single_ne hk]
    · intro q hq
      have hqk : q.1 ∈ ringT.planets.map Prod.fst := List.mem_map.mpr ⟨q, hq, rfl⟩
      rcases hsubT q.1 hqk with h1 | h2
      · exact absurd h1 (List.not_mem_nil q.1)
      · rw [enum_map_snd_comp] at h2
        exact h2
    · intro c hc
      obtain ⟨i, hienum⟩ := exists_enum_pair hc
      obtain ⟨pl, hpl, hps⟩ := hsetT (i, c) hienum
      rw [hfocB] at hps
      exact ⟨pl, hpl, hps⟩

theorem processGroups_settles (sq : Rat → Rat) (V : Rat) (N : Nat) (F : Option String) :
    ∀ (l : List (Nat × MCGroup)) (A : EngineState) (r : List Rat),
      A.focusedPlanetId = F →
      (A.groupOrbits.map Prod.fst).Nodup →
      (∀ ig ∈ l, (ig.2.containers.map Container.id).Nodup) →
      (∀ ig ∈ l, ∀ ring, assocFind ig.2.key A.groupOrbits = some ring →
        (ring.planets.map Prod.fst).Nodup
        ∧ ∀ q ∈ ring.planets, (ig.2.containers.map Container.id).contains q.1 = false →
            F ≠ some q.1) →
      (l.map (fun ig => ig.2.key)).Nodup →
      (processGroups sq V N l (A, r)).1.focusedPlanetId = F
      ∧ ((processGroups sq V N l (A, r)).1.groupOrbits.map Prod.fst).Nodup
      ∧ (∀ p ∈ (processGroups sq V N l (A, r)).1.groupOrbits,
          p.1 ∈ A.groupOrbits.map Prod.fst ∨ p.1 ∈ l.map (fun ig => ig.2.key))
      ∧ (∀ k, (∀ ig ∈ l, ig.2.key ≠ k) →
          assocFind k (processGroups sq V N l (A, r)).1.groupOrbits
            = assocFind k A.groupOrbits)
      ∧ ∀ ig ∈ l, ∃ ring,
          assocFind ig.2.key (processGroups sq V N l (A, r)).1.groupOrbits = some ring
          ∧ RingSettled sq F ig.2 ring
  | [], A, r, hfocA, hkeysN, _, _, _ =>
    ⟨hfocA, hkeysN, fun p hp => Or.inl (List.mem_map.mpr ⟨p, hp, rfl⟩),
      fun _ _ => rfl, fun ig hig => absurd hig (List.not_mem_nil ig)⟩
  | ig :: rest, A, r, hfocA, hkeysN, hmids, horig, hlN => by
    have hheadk : ig.2.key ∉ rest.map (fun ig2 => ig2.2.key) :=
      (List.nodup_cons.mp hlN).1
    obtain ⟨pA, pB, pC, ring, hringS, hRS⟩ := processGroup_settles sq V N ig A r
      (hmids ig (List.mem_cons_self ig rest))
      (fun ring2 hr2 => ⟨(horig ig (List.mem_cons_self ig rest) ring2 hr2).1,
        fun q hq hnm => by
          rw [hfocA]
          exact (horig ig (List.mem_cons_self ig rest) ring2 hr2).2 q hq hnm⟩)
    have hfoc1 : (processGroup sq V N ig (A, r)).1.focusedPlanetId = F := pA.trans hfocA
    have hkeys1 : ((processGroup sq V N ig (A, r)).1.groupOrbits.map Prod.fst).Nodup := by
      rcases pB with h | ⟨h, hnone⟩
      · rw [h]
        exact hkeysN
      · rw [h]
        refine List.Nodup.append hkeysN (List.nodup_singleton _) ?_
        intro x hx1 hx2
        rw [List.mem_singleton] at hx2
        subst hx2
        exact (not_mem_of_assocFind_none hnone) hx1
    have hne : ∀ ig2 ∈ rest, ig2.2.key ≠ ig.2.key := by
      intro ig2 hig2 heq
      exact hheadk (List.mem_map.mpr ⟨ig2, hig2, heq⟩)
    have horig1 : ∀ ig2 ∈ rest, ∀ ring2,
        assocFind ig2.2.key (processGroup sq V N ig (A, r)).1.groupOrbits = some ring2 →
        (ring2.planets.map Prod.fst).Nodup
        ∧ ∀ q ∈ ring2.planets,
            (ig2.2.containers.map Container.id).contains q.1 = false → F ≠ some q.1 := by
      intro ig2 hig2 ring2 hfind
      rw [pC ig2.2.key (hne ig2 hig2)] at hfind
      exact horig ig2 (List.mem_cons_of_mem ig hig2) ring2 hfind
    obtain ⟨iA, iB, iC, iD, iE⟩ := processGroups_settles sq V N F rest
      (processGroup sq V N ig (A, r)).1 (processGroup sq V N ig (A, r)).2
      hfoc1 hkeys1 (fun ig2 hig2 => hmids ig2 (List.mem_cons_of_mem ig hig2))
      horig1 (List.nodup_cons.mp hlN).2
    rw [processGroups]
    refine ⟨iA, iB, fun p hp => ?_, fun k hk => ?_, fun ig2 hig2 => ?_⟩
    · rcases iC p hp with h1 | h2
      · rcases pB with h | ⟨h, _⟩
        · rw [h] at h1
          exact Or.inl h1
        · rw [h] at h1
          rcases List.mem_append.mp h1 with h3 | h4
          · exact Or.inl h3
          · rw [List.mem_singleton] at h4
            refine Or.inr ?_
            rw [List.map_cons, h4]
            exact List.mem_cons_self _ _
      · refine Or.inr ?_
        rw [List.map_cons]
        exact List.mem_cons_of_mem _ h2
    · refine (iD k (fun ig2 hig2 => hk ig2 (List.mem_cons_of_mem ig hig2))).trans ?_
      exact pC k (hk ig (List.mem_cons_self ig rest)).symm
    · rcases List.mem_cons.mp hig2 with hhd | htl
      · subst hhd
        refine ⟨ring, ?_, ?_⟩
        · rw [iD ig2.2.key (fun ig3 hig3 => hne ig3 hig3)]
          exact hringS
        · rw [hfocA] at hRS
          exact hRS
      · exact iE ig2 htl

theorem removeStaleRings_focus (keys : List String) (st : EngineState) :
    (removeStaleRings keys st).focusedPlanetId = st.focusedPlanetId := by
  unfold removeStaleRings
  dsimp only
  obtain ⟨d, hd⟩ := foldl_display_only (fun s p => removeRingVisuals p.2 s)
    (fun s p => removeRingVisuals_display_only p.2 s)
    (st.groupOrbits.filter (fun p => !(keys.contains p.1))) st
  rw [hd]

theorem reconcile_settles (sq : Rat → Rat) (V : Rat) (cs : List Container) (rand : List Rat)
    (st : EngineState)
    (hids : (cs.map Container.id).Nodup)
    (hkeys : (st.groupOrbits.map Prod.fst).Nodup)
    (hplanets : ∀ p ∈ st.groupOrbits, (p.2.planets.map Prod.fst).Nodup)
    (hfocus : ∀ pid, st.focusedPlanetId = some pid → ∀ p ∈ st.groupOrbits,
      ∀ q ∈ p.2.planets, q.1 = pid → ∃ c ∈ cs, c.id = pid ∧ c.group = p.1) :
    Reconciled sq cs (reconcile sq V cs rand st) := by
  have hga : List.Sublist (st.groupOrbits.filter
      (fun p => ((groupContainers cs).map MCGroup.key).contains p.1)) st.groupOrbits :=
    List.filter_sublist _
  have hst1keys : ((removeStaleRings ((groupContainers cs).map MCGroup.key)
      st).groupOrbits.map Prod.fst).Nodup := by
    rw [removeStaleRings_groupOrbits]
    exact List.Nodup.sublist (List.Sublist.map Prod.fst hga) hkeys
  have hst1foc : (removeStaleRings ((groupContainers cs).map MCGroup.key)
      st).focusedPlanetId = st.focusedPlanetId :=
    removeStaleRings_focus _ st
  have hmids : ∀ ig ∈ (groupContainers cs).enum,
      (ig.2.containers.map Container.id).Nodup := by
    intro ig hig
    have hgmem : ig.2 ∈ groupContainers cs :=
      List.getElem?_mem (List.mem_enum_iff_getElem?.mp hig)
    rw [mem_groupContainers hgmem]
    exact List.Nodup.sublist (List.Sublist.map Container.id (List.filter_sublist cs)) hids
  have horig : ∀ ig ∈ (groupContainers cs).enum, ∀ ring,
      assocFind ig.2.key (removeStaleRings ((groupContainers cs).map MCGroup.key)
        st).groupOrbits = some ring →
      (ring.planets.map Prod.fst).Nodup
      ∧ ∀ q ∈ ring.planets, (ig.2.containers.map Container.id).contains q.1 = false →
          st.focusedPlanetId ≠ some q.1 := by
    intro ig hig ring hfind
    have hgmem : ig.2 ∈ groupContainers cs :=
      List.getElem?_mem (List.mem_enum_iff_getElem?.mp hig)
    rw [removeStaleRings_groupOrbits] at hfind
    have hmem1 : (ig.2.key, ring) ∈ st.groupOrbits.filter
        (fun p => ((groupContainers cs).map MCGroup.key).contains p.1) :=
      mem_of_assocFind_some hfind
    have hmem : (ig.2.key, ring) ∈ st.groupOrbits := List.mem_of_mem_filter hmem1
    refine ⟨hplanets (ig.2.key, ring) hmem, ?_⟩
    intro q hq hnm heq
    obtain ⟨c, hc, hcid, hcgrp⟩ := hfocus q.1 heq (ig.2.key, ring) hmem q hq rfl
    have hcmem : c ∈ ig.2.containers := by
      rw [mem_groupContainers hgmem]
      exact List.mem_filter.mpr ⟨hc, beq_iff_eq.mpr hcgrp⟩
    have hcont : (ig.2.containers.map Container.id).contains q.1 = true := by
      refine List.elem_iff.mpr ?_
      rw [← hcid]
      exact List.mem_map.mpr ⟨c, hcmem, rfl⟩
    rw [hcont] at hnm
    cases hnm
  have hlN : (((groupContainers cs).enum).map (fun ig => ig.2.key)).Nodup := by
    rw [enum_map_snd_comp MCGroup.key, groupContainers_keys]
    exact firstOccurrences_nodup _
  obtain ⟨iA, iB, iC, iD, iE⟩ := processGroups_settles sq V (groupContainers cs).length
    st.focusedPlanetId (groupContainers cs).enum
    (removeStaleRings ((groupContainers cs).map MCGroup.key) st) rand
    hst1foc hst1keys hmids horig hlN
  unfold reconcile
  dsimp only
  refine ⟨?_, iB, ?_⟩
  · intro p hp
    rcases iC p hp with h1 | h2
    · rw [removeStaleRings_groupOrbits] at h1
      obtain ⟨p2, hp2, hp2k⟩ := List.mem_map.mp h1
      have hcont := List.of_mem_filter hp2
      rw [hp2k] at hcont
      exact List.elem_iff.mp hcont
    · rw [enum_map_snd_comp MCGroup.key] at h2
      exact h2
  · intro g hg
    obtain ⟨i, hienum⟩ := exists_enum_pair hg
    obtain ⟨ring, hfind, hRS⟩ := iE (i, g) hienum
    rw [iA]
    exact ⟨ring, hfind, hRS⟩

/-- C1: FALSIFIED as literally stated (see the counterexample theorem
C1_counterexample: a pinned body whose entity switched groups between
refreshes leaves the second run visibly different from the first), and
amended: re-running the per-refresh reconciliation step with an unchanged
entity list is the identity on the whole scene state — no ring or body is
destroyed or re-created, no start angle re-randomized, no angle reset —
provided the entity ids are pairwise distinct, the scene's ring keys and
per-ring planet keys are duplicate-free, and every planet of the focused
body's id (if a body is focused) belongs to an entity that is still in
the list with an unchanged group. -/
theorem C1_reconcile_idempotent_conditional (sq : Rat → Rat) (V : Rat) (cs : List Container)
    (rand1 rand2 : List Rat) (st : EngineState)
    (hids : (cs.map Container.id).Nodup)
    (hkeys : (st.groupOrbits.map Prod.fst).Nodup)
    (hplanets : ∀ p ∈ st.groupOrbits, (p.2.planets.map Prod.fst).Nodup)
    (hfocus : ∀ pid, st.focusedPlanetId = some pid → ∀ p ∈ st.groupOrbits,
      ∀ q ∈ p.2.planets, q.1 = pid → ∃ c ∈ cs, c.id = pid ∧ c.group = p.1) :
    reconcile sq V cs rand2 (reconcile sq V cs rand1 st) = reconcile sq V cs rand1 st :=
  reconcile_id sq V cs rand2 _
    (reconcile_settles sq V cs rand1 st hids hkeys hplanets hfocus)

theorem C1_reconcile_idempotent_conditional_witness :
    reconcile sqId 100 C5entities [5, 7] (reconcile sqId 100 C5entities [0, 0] initialState)
      = reconcile sqId 100 C5entities [0, 0] initialState :=
  C1_reconcile_idempotent_conditional sqId 100 C5entities [0, 0] [5, 7] initialState
    (by decide) (by decide) (by decide) (fun _ h => nomatch h)

end MissionControl
